import Mathlib

/-!
Verification of `generate_html.py` (Rive gallery static-site generator).

This file shallowly embeds the pure, string-processing core of the script:
Python strings are modelled as `List Char` (`PyStr`), Python dict rows as a
`Row` structure, the global `random` state as an explicit stream of pre-drawn
`randint` results, and a Python exception escaping a function as `Option`
(`none` = uncaught exception).  Python float arithmetic in `scale_dimensions`
(`int / int` true division, `int * float`, `round`) is modelled bit-exactly as
IEEE-754 binary64 over integer arithmetic: a double is a dyadic pair `(m, g)`
standing for `m·2^g`, every operation rounds its exact rational result to
nearest with ties to even significand (`zRoundHalfEven`, `flFrac`, `mulF`),
overflow to `±inf` and the `OverflowError` of an over-large `int → float`
conversion are `none`, and `round` is Python 3's ties-to-even
(`pyRoundDyadic`).  String-valued functions of the script are transcribed
literally (f-strings become concatenations).
-/

/-- Python strings, modelled as lists of characters (ASCII fragment). -/
abbrev PyStr := List Char

/-- Shorthand: the character list of a Lean string literal. -/
def S (s : String) : PyStr := s.data

/-- The ASCII whitespace characters stripped by Python's `str.strip()`. -/
def isPySpace (c : Char) : Bool :=
  c = ' ' || c = '\t' || c = '\n' || c = '\x0d' || c = '\x0b' || c = '\x0c'

/-- `str.lstrip()` on ASCII whitespace. -/
def pyStripL (l : PyStr) : PyStr := l.dropWhile isPySpace

/-- `str.rstrip()` on ASCII whitespace. -/
def pyStripR (l : PyStr) : PyStr := (l.reverse.dropWhile isPySpace).reverse

/-- `str.strip()` on ASCII whitespace. -/
def pyStrip (l : PyStr) : PyStr := pyStripR (pyStripL l)

/-- `str.lower()` (ASCII). -/
def pyLower (l : PyStr) : PyStr := l.map Char.toLower

/-- `str.title()` (ASCII): a cased character is uppercased after a non-letter
and lowercased after a letter. -/
def pyTitleGo (prevAlpha : Bool) : PyStr → PyStr
  | [] => []
  | c :: r =>
    (if c.isAlpha then (if prevAlpha then c.toLower else c.toUpper) else c) ::
      pyTitleGo c.isAlpha r

/-- `str.title()` (ASCII). -/
def pyTitle (l : PyStr) : PyStr := pyTitleGo false l

/-- Python truthiness of an optional string (`None` and `""` are falsy). -/
def pyTruthy (v : Option PyStr) : Bool :=
  match v with
  | none => false
  | some s => !s.isEmpty

/-- `s.split(sep, 1)`: split at the first occurrence of `sep`, `none` when
`sep` does not occur. -/
def splitFirst (sep : Char) : PyStr → Option (PyStr × PyStr)
  | [] => none
  | c :: r =>
    if c = sep then some ([], r)
    else (splitFirst sep r).map (fun p => (c :: p.1, p.2))

/-- Decimal digit character (for `str(n)`). -/
def digitChar (n : Nat) : Char := Char.ofNat (48 + n % 10)

/-- Decimal digits, least significant first, with explicit fuel so that the
definition is structural (any `fuel > n` computes the digits of `n`). -/
def natReprAux : Nat → Nat → List Char
  | 0, _ => []
  | fuel + 1, n =>
    if n < 10 then [digitChar n] else digitChar (n % 10) :: natReprAux fuel (n / 10)

/-- Decimal digits of `n`, least significant first. -/
def natReprRev (n : Nat) : List Char := natReprAux (n + 1) n

/-- Python `str(n)` for a natural number. -/
def natRepr (n : Nat) : PyStr := (natReprRev n).reverse

/-- Python `str(z)` for an integer. -/
def intRepr (z : Int) : PyStr :=
  if z < 0 then '-' :: natRepr z.natAbs else natRepr z.toNat

/-- Digit run with Python 3 underscore rules (`1_000`): underscores must sit
between digits.  Returns the value, `none` on a malformed run. -/
def parseDigitsGo (acc : Nat) : List Char → Option Nat
  | [] => some acc
  | '_' :: c :: rest =>
    if c.isDigit then parseDigitsGo (acc * 10 + (c.toNat - 48)) rest else none
  | c :: rest =>
    if c.isDigit then parseDigitsGo (acc * 10 + (c.toNat - 48)) rest else none

/-- Nonempty digit run (first char must be a digit, no leading underscore). -/
def parseDigitsU : List Char → Option Nat
  | [] => none
  | c :: rest => if c.isDigit then parseDigitsGo (c.toNat - 48) rest else none

/-- Python `int(s)` on a string (ASCII fragment): surrounding whitespace,
optional sign, digits with optional single underscores between them;
`none` models the `ValueError` raised otherwise. -/
def pyInt (s : PyStr) : Option Int :=
  match pyStrip s with
  | '+' :: r => (parseDigitsU r).map (fun n => (n : Int))
  | '-' :: r => (parseDigitsU r).map (fun n => -(n : Int))
  | r => (parseDigitsU r).map (fun n => (n : Int))

/-- Round the signed fraction `a / b` (`b > 0`) to the nearest integer, ties
to the even integer: Python 3 `round` and the IEEE-754 default rounding of a
significand. -/
def zRoundHalfEven (a b : ℤ) : ℤ :=
  let f := a.fdiv b
  let r := a - f * b
  if 2 * r < b then f
  else if b < 2 * r then f + 1
  else if f % 2 = 0 then f else f + 1

/-- Floor of `log₂ n` by repeated halving, with explicit fuel so that the
definition is structural and the kernel can evaluate it (exact whenever `n`
has at most `fuel` bits). -/
def natLog2F : Nat → Nat → Nat
  | 0, _ => 0
  | fuel + 1, n => if n < 2 then 0 else natLog2F fuel (n / 2) + 1

/-- Decides `2 ^ e ≤ a / b` (`a, b ≥ 1`) by integer cross-multiplication. -/
def pow2LeFrac (e : ℤ) (a b : Nat) : Bool :=
  match e with
  | .ofNat n => decide (b * 2 ^ n ≤ a)
  | .negSucc n => decide (b ≤ a * 2 ^ (n + 1))

/-- Floor of `log₂ (a / b)` for `a, b ≥ 1`: the bit-length estimate is off by
at most one, and the exact probes settle it.  The halving fuel 4400 makes the
estimate exact below `2^4401`, which covers every operand arising here whose
exponent matters: a 4401-bit numerator only reaches `flFrac` en route to an
overflow (`≥ 2^1024`), and a 4401-bit denominator only with a numerator small
enough that the value is far below `2^-1074` — in both cases the probes land
the result on the correct side of the clamps in `flFrac`. -/
def ilog2 (a b : Nat) : ℤ :=
  let e0 : ℤ := (natLog2F 4400 a : ℤ) - (natLog2F 4400 b : ℤ)
  if pow2LeFrac (e0 + 1) a b then e0 + 1
  else if pow2LeFrac e0 a b then e0
  else e0 - 1

/-- Round `a / b` (`b ≥ 1`) to the nearest IEEE-754 binary64 value, ties to
even significand: the result `(m, g)` stands for `m·2^g`, the granularity `g`
is 52 binary places below the leading bit, clamped at `2^-1074` (gradual
underflow); `none` when the rounded magnitude reaches `2^1024` (overflow to
`±inf`, or `OverflowError` on an `int → float` conversion). -/
def flFrac (a : ℤ) (b : Nat) : Option (ℤ × ℤ) :=
  if a = 0 then some (0, 0)
  else
    let e := ilog2 a.natAbs b
    let g := max (e - 52) (-1074)
    let m :=
      if 0 ≤ g then zRoundHalfEven a ((b : ℤ) * 2 ^ g.toNat)
      else zRoundHalfEven (a * 2 ^ (-g).toNat) (b : ℤ)
    let ovfl :=
      if 0 ≤ g then decide (2 ^ 1024 ≤ m.natAbs * 2 ^ g.toNat)
      else decide (2 ^ (1024 + (-g).toNat) ≤ m.natAbs)
    if ovfl then none else some (m, g)

/-- Binary64 multiplication: the exact product of two doubles, rounded back to
binary64; `none` models overflow to `±inf`. -/
def mulF (x y : ℤ × ℤ) : Option (ℤ × ℤ) :=
  let m := x.1 * y.1
  let g := x.2 + y.2
  if 0 ≤ g then flFrac (m * 2 ^ g.toNat) 1 else flFrac m (2 ^ (-g).toNat)

/-- Python 3 `round` on the binary64 value `m·2^g`: the exact integer for
`g ≥ 0`, otherwise nearest with ties to even. -/
def pyRoundDyadic (m g : ℤ) : ℤ :=
  if 0 ≤ g then m * 2 ^ g.toNat else zRoundHalfEven m ((2 : ℤ) ^ (-g).toNat)

/-- Exact rational value of the binary64 pair `(m, g)`. -/
def dyVal (p : ℤ × ℤ) : ℚ :=
  if 0 ≤ p.2 then (p.1 : ℚ) * 2 ^ p.2.toNat else (p.1 : ℚ) / 2 ^ (-p.2).toNat

/-- A Python value that is either an `int` or a `str` (the two result shapes
of `scale_dimensions`). -/
inductive PyVal where
  | int : Int → PyVal
  | str : PyStr → PyVal
deriving DecidableEq, Repr

/-- Rendering of a `PyVal` inside an f-string. -/
def pyValStr : PyVal → PyStr
  | .int z => intRepr z
  | .str s => s

/-- `scale_dimensions(width, height)` with `SCALE_TO_200PX = True`.
`none` models an uncaught exception (only `ValueError`/`TypeError` are
caught): `ZeroDivisionError` from `200 / width` when the parsed width is `0`,
and `OverflowError` when the parsed height is too large to convert to a float
or when `round` is applied to an infinite product.  The float expression
`int(round(height * (200 / width)))` is evaluated in IEEE-754 binary64, step
by step as CPython does: `200 / width` is the correctly rounded double of the
exact quotient, `height * scale` converts `height` to a double and rounds the
exact double product, and `round` is ties-to-even on the product's value. -/
def scale_dimensions (width height : PyStr) : Option (PyVal × PyVal) :=
  match pyInt width, pyInt height with
  | some wi, some hi =>
    if wi = 200 then some (.int wi, .int hi)
    else if wi = 0 then none
    else
      match flFrac (if wi < 0 then -200 else 200) wi.natAbs with
      | none => none
      | some s =>
        match flFrac hi 1 with
        | none => none
        | some fh =>
          match mulF fh s with
          | none => none
          | some p => some (.int 200, .int (pyRoundDyadic p.1 p.2))
  | _, _ => some (.str width, .str height)

/-- `parse_input_type_name`: `None` input or `""` gives `(None, None)`;
otherwise strip, split on the first colon when present, else implied kind
`"num"` with the whole (stripped) string as name. -/
def parse_input_type_name (input_value : PyStr) : Option PyStr × Option PyStr :=
  if input_value = [] then (none, none)
  else
    let s := pyStrip input_value
    match splitFirst ':' s with
    | some (t, n) => (some (pyStrip t), some (pyStrip n))
    | none => (some (S "num"), some (pyStrip s))

/-- The regex step of `parse_input_spec`: given the (already stripped) name,
when it ends with `)` and contains `(`, match `^(.*)\(([^()]*)\)\s*$` —
i.e. split at the last `(` provided no parenthesis occurs after it before the
final `)` and no newline occurs before it (an unescaped `.` does not match
`\n`, while the class `[^()]` and `\s` do; the split `(` must be the last one
since `[^()]*` cannot span a later `(`, so no backtracking alternative
exists) — and return the stripped name prefix and stripped default.
Otherwise the name is returned unchanged with no default. -/
def extractDefault (n : PyStr) : PyStr × Option PyStr :=
  if n.getLast? = some ')' ∧ '(' ∈ n then
    let body := n.dropLast
    let tailRev := body.reverse.takeWhile (fun c => c ≠ '(')
    let d := tailRev.reverse
    let a := (body.reverse.drop (tailRev.length + 1)).reverse
    if ')' ∈ d ∨ '\n' ∈ a then (n, none) else (pyStrip a, some (pyStrip d))
  else (n, none)

/-- `parse_input_spec`: returns `(type, name_without_default, default)`. -/
def parse_input_spec (input_value : PyStr) :
    Option PyStr × Option PyStr × Option PyStr :=
  let tn := parse_input_type_name input_value
  match tn.2 with
  | none => (tn.1, none, none)
  | some n =>
    let ed := extractDefault n
    (tn.1, some ed.1, ed.2)

/-- `parse_list_inner`: inner spec of a list input, `num:Name` or bare name
with implied kind `"num"`. -/
def parse_list_inner (spec : PyStr) : PyStr × PyStr :=
  let s := pyStrip spec
  match splitFirst ':' s with
  | some (t, n) => (pyStrip t, pyStrip n)
  | none => (S "num", s)

/-- The insertion pass of `re.sub(r'(?<!^)(?=[A-Z])', repl, s)` on all
characters after the first: `repl` is spliced in before every uppercase
character. -/
def insertUpperAux (repl : PyStr) : PyStr → PyStr
  | [] => []
  | c :: rest => (if c.isUpper then repl else []) ++ c :: insertUpperAux repl rest

/-- `re.sub(r'(?<!^)(?=[A-Z])', repl, s)`: the zero-width pattern matches at
every non-initial position followed by an uppercase letter, so `repl` is
inserted there; position 0 is excluded by the look-behind. -/
def reSubUpperBoundary (repl : PyStr) : PyStr → PyStr
  | [] => []
  | c :: rest => c :: insertUpperAux repl rest

/-- `camel_to_words`: the `re.sub` with an empty replacement, then `strip`. -/
def camel_to_words (name : PyStr) : PyStr := pyStrip (reSubUpperBoundary [] name)

/-- Anchored match of `^([^\[]+)\[(.+)\]$` against the whole string:
a nonempty `[`-free prefix, a `[`, a nonempty middle without `\n`
(`.` does not match newlines), and a final `]`. -/
def listBracketExact (s : PyStr) : Option (PyStr × PyStr) :=
  let pre := s.takeWhile (fun c => c ≠ '[')
  let rest := s.drop pre.length
  if pre = [] then none
  else
    match rest with
    | '[' :: mid =>
      if mid.length ≥ 2 ∧ mid.getLast? = some ']' ∧ '\n' ∉ mid.dropLast then
        some (pre, mid.dropLast)
      else none
    | _ => none

/-- `re.match(r'^([^\[]+)\[(.+)\]$', s)`: as `$` also matches just before a
single trailing newline, a failed whole-string match is retried with a final
`\n` removed. -/
def listBracketMatch (s : PyStr) : Option (PyStr × PyStr) :=
  match listBracketExact s with
  | some r => some r
  | none => if s.getLast? = some '\n' then listBracketExact s.dropLast else none

/-- The state of Python's global `random` generator, modelled as the stream of
values the next calls to `random.randint(0, 0xFFFFFF)` will return (an
exhausted stream keeps yielding 0). -/
abbrev Rng := List Nat

/-- Hexadecimal digit character (lowercase, as `"{:06x}".format`). -/
def hexChar (n : Nat) : Char :=
  if n < 10 then Char.ofNat (48 + n) else Char.ofNat (87 + n % 16)

/-- `"{:06x}".format v` for `v < 16^6`: six zero-padded lowercase hex digits. -/
def hex6 (v : Nat) : PyStr :=
  [hexChar (v / 1048576 % 16), hexChar (v / 65536 % 16), hexChar (v / 4096 % 16),
   hexChar (v / 256 % 16), hexChar (v / 16 % 16), hexChar (v % 16)]

/-- `random_color_hex()`: draws `random.randint(0, 0xFFFFFF)` from the stream
and formats it as `#RRGGBB`. -/
def random_color_hex (rng : Rng) : PyStr × Rng :=
  match rng with
  | [] => ('#' :: hex6 0, [])
  | v :: rest => ('#' :: hex6 (v % 16777216), rest)

/-- One normalized CSV row (`csv.DictReader` dict).  Fields read with
`row["…"]` are plain strings; fields read with `row.get(…)` may be absent
(`none` models a missing key / `None` value).  `inputs i` is
`row.get(f"input{i}")`. -/
structure Row where
  src : PyStr
  width : PyStr
  height : PyStr
  duration : PyStr
  loop : PyStr
  background : PyStr
  state_machine : PyStr
  artboard : Option PyStr
  trigger : Option PyStr
  inputs : Nat → Option PyStr

/-- `INPUT_RANGE = range(1, 7)`. -/
def INPUT_RANGE : List Nat := [1, 2, 3, 4, 5, 6]

/-- The common shape of the seven control f-strings in `parse_input_field`:
a flex row with a label and one input element. -/
def inputRowHtml (input_id input_name inputLine : PyStr) : PyStr :=
  S "\n        <div style=\"display:flex;align-items:center;gap:4px;\">\n            <label for=\"" ++
  input_id ++ S "\">" ++ input_name ++ S ":</label>\n            " ++ inputLine ++
  S "\n        </div>\n        "

/-- `parse_input_field(input_value, input_idx, button_id)`: renders the HTML
control for one input spec, threading the random stream (consumed only by the
`col` kind for its random default colour).  Unknown kinds, `list` kind and a
falsy kind render the empty string. -/
def parse_input_field (input_value : PyStr) (input_idx : Nat) (button_id : PyStr)
    (rng : Rng) : PyStr × Rng :=
  let t := (parse_input_spec input_value).1
  let n := (parse_input_spec input_value).2.1
  let d := (parse_input_spec input_value).2.2
  if t = some (S "list") then ([], rng)
  else if t = none ∨ t = some [] then ([], rng)
  else
    let input_id := button_id ++ S "_input" ++ natRepr input_idx
    let input_name := n.getD (S "None")
    if t = some (S "num") then
      (inputRowHtml input_id input_name
        (S "<input type=\"number\" id=\"" ++ input_id ++ S "\" value=\"" ++
         d.getD (S "80") ++ S "\" style=\"width:50px;\" />"), rng)
    else if t = some (S "v_num") then
      (inputRowHtml input_id input_name
        (S "<input type=\"number\" id=\"" ++ input_id ++ S "\" value=\"" ++
         d.getD (S "0") ++ S "\" style=\"width:60px;\" />"), rng)
    else if t = some (S "txt") then
      (inputRowHtml input_id input_name
        (S "<input type=\"text\" id=\"" ++ input_id ++ S "\" style=\"width:90px;\" />"), rng)
    else if t = some (S "bol") then
      (inputRowHtml input_id input_name
        (S "<input type=\"checkbox\" id=\"" ++ input_id ++ S "\" />"), rng)
    else if t = some (S "col") then
      let cr := random_color_hex rng
      (inputRowHtml input_id input_name
        (S "<input type=\"color\" id=\"" ++ input_id ++ S "\" value=\"" ++
         cr.1 ++ S "\" />"), cr.2)
    else if t = some (S "v_bol") then
      let checked :=
        match d with
        | some dv =>
          [S "true", S "1", S "yes", S "y", S "on", S "checked"].contains
            (pyLower (pyStrip dv))
        | none => false
      let checked_attr := if checked then S " checked" else []
      (inputRowHtml input_id input_name
        (S "<input type=\"checkbox\" id=\"" ++ input_id ++ S "\"" ++
         checked_attr ++ S " />"), rng)
    else if t = some (S "img") then
      (inputRowHtml input_id input_name
        (S "<input type=\"text\" id=\"" ++ input_id ++
         S "\" placeholder=\"filename.ext\" value=\"" ++ d.getD [] ++
         S "\" style=\"width:100px;\" />"), rng)
    else ([], rng)

/-- The loop shared by `collect_input_fields` and `make_animation_inputs`:
for each index whose input cell is present and non-blank, render the control
and concatenate, threading the random stream. -/
def collectGo (row : Row) (pfx : PyStr) : List Nat → Rng → PyStr × Rng
  | [], rng => ([], rng)
  | i :: is, rng =>
    match row.inputs i with
    | some v =>
      if pyStrip v ≠ [] then
        let p := parse_input_field v i pfx rng
        let rest := collectGo row pfx is p.2
        (p.1 ++ rest.1, rest.2)
      else collectGo row pfx is rng
    | none => collectGo row pfx is rng

/-- `collect_input_fields(row, button_id)`. -/
def collect_input_fields (row : Row) (button_id : PyStr) (rng : Rng) : PyStr × Rng :=
  collectGo row button_id INPUT_RANGE rng

/-- `make_animation_inputs(row, prefix)` — the source duplicates the loop of
`collect_input_fields` verbatim. -/
def make_animation_inputs (row : Row) (pfx : PyStr) (rng : Rng) : PyStr × Rng :=
  collectGo row pfx INPUT_RANGE rng

/-- The normalization of the `state_machine` field in `main`: a missing or
falsy or blank value is replaced by `"State Machine 1"` (the `or` in the
source short-circuits, so the blank test only runs on a present value). -/
def normalize_state_machine : Option PyStr → PyStr
  | none => S "State Machine 1"
  | some s => if s = [] then S "State Machine 1"
    else if pyStrip s = [] then S "State Machine 1" else s

/-- `ANIMATIONS_PER_PAGE = 8`. -/
def ANIMATIONS_PER_PAGE : Nat := 8

/-- `total_pages = (len(rows) + ANIMATIONS_PER_PAGE - 1) // ANIMATIONS_PER_PAGE`. -/
def total_pages_of (n : Nat) : Nat := (n + ANIMATIONS_PER_PAGE - 1) / ANIMATIONS_PER_PAGE

/-- The pagination loop of `main`: page `p` is `rows[8p : 8p+8]`. -/
def paginationPages (rows : List α) : List (List α) :=
  (List.range (total_pages_of rows.length)).map
    (fun p => (rows.drop (p * ANIMATIONS_PER_PAGE)).take ANIMATIONS_PER_PAGE)

/-! ### Generic list lemmas about the string model -/

theorem dropWhile_append_cons_not {p : Char → Bool} {c : Char} (hc : p c = false) :
    ∀ (a r : PyStr), (a ++ c :: r).dropWhile p = a.dropWhile p ++ c :: r := by
  intro a r
  induction a with
  | nil => simp [List.dropWhile, hc]
  | cons x xs ih =>
    by_cases hx : p x
    · simp [List.dropWhile, hx, ih]
    · simp [List.dropWhile, hx]

theorem dropWhile_idem {p : Char → Bool} (l : PyStr) :
    (l.dropWhile p).dropWhile p = l.dropWhile p := by
  induction l with
  | nil => rfl
  | cons x xs ih =>
    by_cases hx : p x
    · simp [List.dropWhile, hx, ih]
    · simp [List.dropWhile, hx]

theorem takeWhile_append_of_all {p : Char → Bool} :
    ∀ (a l : PyStr), (∀ x ∈ a, p x = true) → (a ++ l).takeWhile p = a ++ l.takeWhile p := by
  intro a l ha
  induction a with
  | nil => simp
  | cons x xs ih =>
    have hx : p x = true := ha x (by simp)
    simp [List.takeWhile, hx]
    exact ih (fun y hy => ha y (by simp [hy]))

theorem takeWhile_cons_of_not {p : Char → Bool} {c : Char} (hc : p c = false) (l : PyStr) :
    (c :: l).takeWhile p = [] := by
  simp [List.takeWhile, hc]

theorem pyStripL_append_cons {c : Char} (hc : isPySpace c = false) (a r : PyStr) :
    pyStripL (a ++ c :: r) = pyStripL a ++ c :: r :=
  dropWhile_append_cons_not hc a r

theorem pyStripR_concat {c : Char} (hc : isPySpace c = false) (x : PyStr) :
    pyStripR (x ++ [c]) = x ++ [c] := by
  simp [pyStripR, List.dropWhile, hc]

theorem pyStripL_idem (l : PyStr) : pyStripL (pyStripL l) = pyStripL l :=
  dropWhile_idem l

theorem pyStrip_pyStripL (l : PyStr) : pyStrip (pyStripL l) = pyStrip l := by
  simp [pyStrip, pyStripL_idem]

theorem mem_of_mem_pyStripL {c : Char} {l : PyStr} (h : c ∈ pyStripL l) : c ∈ l :=
  (List.dropWhile_sublist _).mem h

theorem mem_of_mem_pyStrip {c : Char} {l : PyStr} (h : c ∈ pyStrip l) : c ∈ l := by
  have h1 : c ∈ (pyStripL l).reverse.dropWhile isPySpace := by
    simpa [pyStrip, pyStripR] using h
  exact mem_of_mem_pyStripL (by simpa using (List.dropWhile_sublist _).mem h1)

theorem splitFirst_append {sep : Char} :
    ∀ (a r : PyStr), sep ∉ a → splitFirst sep (a ++ sep :: r) = some (a, r) := by
  intro a r ha
  induction a with
  | nil => simp [splitFirst]
  | cons x xs ih =>
    have hx : ¬(x = sep) := fun h => ha (by simp [h])
    have ih' := ih (fun h => ha (by simp [h]))
    simp [splitFirst, hx, ih']

theorem splitFirst_eq_none_iff {sep : Char} :
    ∀ (l : PyStr), splitFirst sep l = none ↔ sep ∉ l := by
  intro l
  induction l with
  | nil => simp [splitFirst]
  | cons x xs ih =>
    by_cases hx : x = sep
    · simp [splitFirst, hx]
    · rw [List.mem_cons]
      simp only [splitFirst, if_neg hx, Option.map_eq_none', ih]
      constructor
      · intro h hc
        rcases hc with hc | hc
        · exact hx hc.symm
        · exact h hc
      · intro h hm
        exact h (Or.inr hm)

/-! ### C1: the pagination plan -/

theorem pagination_flatten_aux {α : Type _} :
    ∀ (k : Nat) (l : List α), l.length ≤ k * 8 →
      ((List.range k).map (fun p => (l.drop (p * 8)).take 8)).flatten = l := by
  intro k
  induction k with
  | zero =>
    intro l h
    have : l = [] := List.eq_nil_of_length_eq_zero (by omega)
    simp [this]
  | succ k ih =>
    intro l h
    rw [List.range_succ_eq_map]
    simp only [List.map_cons, List.map_map, List.flatten_cons, Nat.zero_mul,
      List.drop_zero]
    have hmap : (fun p => (l.drop (p * 8)).take 8) ∘ Nat.succ =
        fun p => ((l.drop 8).drop (p * 8)).take 8 := by
      funext p
      simp only [Function.comp, List.drop_drop]
      congr 2
      omega
    rw [hmap, ih (l.drop 8) (by simp; omega), List.take_append_drop]

/-- C1: for any input row list the generation run's pagination loop produces
exactly `⌈N/8⌉` pages (`ANIMATIONS_PER_PAGE = 8`); concatenating the page
slices in page order reproduces the row list exactly (so slices are
contiguous, cover everything and never overlap); zero rows produce zero
pages; and each produced page is a nonempty slice of at most 8 rows. -/
theorem pagination_plan {α : Type _} (rows : List α) :
    (paginationPages rows).length = (rows.length + 7) / 8 ∧
    (paginationPages rows).flatten = rows ∧
    (rows = [] → paginationPages rows = []) ∧
    ∀ pg ∈ paginationPages rows, pg ≠ [] ∧ pg.length ≤ 8 := by
  refine ⟨?_, ?_, ?_, ?_⟩
  · simp only [paginationPages, List.length_map, List.length_range, total_pages_of,
      ANIMATIONS_PER_PAGE]
    omega
  · exact pagination_flatten_aux _ rows (by simp [total_pages_of, ANIMATIONS_PER_PAGE]; omega)
  · rintro rfl
    simp [paginationPages, total_pages_of, ANIMATIONS_PER_PAGE]
  · intro pg hpg
    simp only [paginationPages, List.mem_map, List.mem_range] at hpg
    obtain ⟨p, hp, rfl⟩ := hpg
    have hlt : p * ANIMATIONS_PER_PAGE < rows.length := by
      simp only [total_pages_of, ANIMATIONS_PER_PAGE] at hp ⊢
      omega
    constructor
    · have : 0 < ((rows.drop (p * ANIMATIONS_PER_PAGE)).take ANIMATIONS_PER_PAGE).length := by
        simp only [List.length_take, List.length_drop]
        simp only [ANIMATIONS_PER_PAGE] at hlt ⊢
        omega
      exact List.ne_nil_of_length_pos this
    · exact List.length_take_le _ _

/-- Witness for C1 at concrete inputs: the empty table gives zero pages, and a
9-row table gives 2 pages whose concatenation is the table. -/
theorem pagination_plan_witness :
    paginationPages ([] : List Nat) = [] ∧
    (paginationPages [0, 1, 2, 3, 4, 5, 6, 7, 8]).length = 2 ∧
    (paginationPages [0, 1, 2, 3, 4, 5, 6, 7, 8]).flatten = [0, 1, 2, 3, 4, 5, 6, 7, 8] ∧
    ([0, 1, 2, 3, 4, 5, 6, 7] ≠ ([] : List Nat) ∧
      ([0, 1, 2, 3, 4, 5, 6, 7] : List Nat).length ≤ 8) := by
  refine ⟨(pagination_plan ([] : List Nat)).2.2.1 rfl, ?_, (pagination_plan _).2.1, ?_⟩
  · have h := (pagination_plan ([0, 1, 2, 3, 4, 5, 6, 7, 8] : List Nat)).1
    simpa using h
  · exact (pagination_plan ([0, 1, 2, 3, 4, 5, 6, 7, 8] : List Nat)).2.2.2
      [0, 1, 2, 3, 4, 5, 6, 7] (by decide)

/-! ### C6: state-machine defaulting -/

/-- C6: a missing or blank (whitespace-only) `state_machine` cell is
normalized to the canonical `"State Machine 1"`; a non-blank cell is kept
unchanged. -/
theorem state_machine_default (v : Option PyStr) :
    ((v = none ∨ ∃ s, v = some s ∧ pyStrip s = []) →
      normalize_state_machine v = S "State Machine 1") ∧
    (∀ s, v = some s → pyStrip s ≠ [] → normalize_state_machine v = s) := by
  constructor
  · rintro (rfl | ⟨s, rfl, hs⟩)
    · rfl
    · by_cases h : s = [] <;> simp [normalize_state_machine, h, hs]
  · rintro s rfl hne
    have h : s ≠ [] := by rintro rfl; exact hne rfl
    simp [normalize_state_machine, h, hne]

/-- Witness for C6: a whitespace-only cell gets the default, a named cell is
kept. -/
theorem state_machine_default_witness :
    normalize_state_machine (some (S "  ")) = S "State Machine 1" ∧
    normalize_state_machine (some (S "Motion")) = S "Motion" :=
  ⟨(state_machine_default _).1 (Or.inr ⟨_, rfl, by decide⟩),
   (state_machine_default _).2 _ rfl (by decide)⟩

/-! ### C10: `camel_to_words` is a no-op up to stripping -/

theorem insertUpperAux_nil : ∀ (l : PyStr), insertUpperAux [] l = l := by
  intro l
  induction l with
  | nil => rfl
  | cons c r ih => simp [insertUpperAux, ih]

/-- C10: for every string, `camel_to_words` returns the string merely
stripped of surrounding whitespace: the regex substitution inserts the empty
replacement at zero-width positions and removes nothing, so no
camel-case-to-words conversion occurs and the view-model list lookup
receives the raw (trimmed) bracketed list name. -/
theorem camel_to_words_is_strip (s : PyStr) : camel_to_words s = pyStrip s := by
  cases s with
  | nil => rfl
  | cons c r => simp [camel_to_words, reSubUpperBoundary, insertUpperAux_nil]

/-! ### C8: the `list:Bars[num:Height]` example -/

/-- C8: parsing `list:Bars[num:Height]` yields the list kind with name
`Bars[num:Height]` and no default; the bracket regex splits it into list name
`Bars` and inner spec `num:Height`; the inner spec parses to kind `num` and
name `Height`; and `parse_input_field` renders no markup for it (and leaves
the random stream untouched). -/
theorem list_input_spec (input_idx : Nat) (button_id : PyStr) (rng : Rng) :
    parse_input_spec (S "list:Bars[num:Height]") =
      (some (S "list"), some (S "Bars[num:Height]"), none) ∧
    listBracketMatch (S "Bars[num:Height]") = some (S "Bars", S "num:Height") ∧
    parse_list_inner (S "num:Height") = (S "num", S "Height") ∧
    parse_input_field (S "list:Bars[num:Height]") input_idx button_id rng = ([], rng) := by
  refine ⟨by decide, by decide, by decide, ?_⟩
  rfl

/-! ### C7: parsing and rendering never raise, degrading to inert controls -/

/-- The kinds for which `parse_input_field` renders a control. -/
def renderedKinds : List (Option PyStr) :=
  [some (S "num"), some (S "v_num"), some (S "txt"), some (S "bol"),
   some (S "col"), some (S "v_bol"), some (S "img")]

set_option maxHeartbeats 1000000 in
/-- C7: `parse_input_spec` and `parse_input_field` are total (the embedding
contains no partial operation, mirroring the absence of raising operations on
their code paths): an empty input yields no spec and no control, and every
input either renders nothing (inert) or parsed to one of the recognized
rendered kinds. -/
theorem parse_total_graceful (s : PyStr) (input_idx : Nat) (button_id : PyStr)
    (rng : Rng) :
    (s = [] → parse_input_spec s = (none, none, none) ∧
      parse_input_field s input_idx button_id rng = ([], rng)) ∧
    ((parse_input_field s input_idx button_id rng).1 = [] ∨
      (parse_input_spec s).1 ∈ renderedKinds) := by
  constructor
  · rintro rfl
    exact ⟨rfl, rfl⟩
  · simp only [parse_input_field]
    split_ifs with h1 h2 h3 h4 h5 h6 h7 h8 h9 h10
    · exact Or.inl rfl
    · exact Or.inl rfl
    · exact Or.inr (by rw [h3]; decide)
    · exact Or.inr (by rw [h4]; decide)
    · exact Or.inr (by rw [h5]; decide)
    · exact Or.inr (by rw [h6]; decide)
    · exact Or.inr (by rw [h7]; decide)
    · exact Or.inr (by rw [h8]; decide)
    · exact Or.inr (by rw [h8]; decide)
    · exact Or.inr (by rw [h10]; decide)
    · exact Or.inl rfl

/-- Witness for C7: the empty-input case of `parse_total_graceful` at a
concrete instance. -/
theorem parse_total_graceful_witness :
    parse_input_spec [] = (none, none, none) ∧
    parse_input_field [] 1 [] [] = ([], []) :=
  (parse_total_graceful [] 1 [] []).1 rfl

/-! ### C4: fallback behaviour for unknown kind tags -/

theorem append_ne_nil_of_left {x y : PyStr} (hx : x ≠ []) : x ++ y ≠ [] := by
  cases x with
  | nil => exact absurd rfl hx
  | cons c r => simp

theorem inputRowHtml_ne_nil (a b c : PyStr) : inputRowHtml a b c ≠ [] := by
  have h0 : (S "\n        <div style=\"display:flex;align-items:center;gap:4px;\">\n            <label for=\"") ≠ ([] : PyStr) := by decide
  unfold inputRowHtml
  exact append_ne_nil_of_left (append_ne_nil_of_left (append_ne_nil_of_left
    (append_ne_nil_of_left (append_ne_nil_of_left (append_ne_nil_of_left h0)))))

theorem pyStripR_cons (c : Char) (r : PyStr) :
    pyStripR (c :: r) =
      if pyStripR r = [] then (if isPySpace c then [] else [c])
      else c :: pyStripR r := by
  simp only [pyStripR, List.reverse_cons, List.dropWhile_append]
  by_cases hr : (r.reverse.dropWhile isPySpace) = []
  · rw [hr]
    simp only [List.isEmpty_nil, if_pos rfl, List.reverse_nil, if_pos rfl]
    by_cases hc : isPySpace c <;> simp [List.dropWhile, hc]
  · rw [if_neg (by simp [List.isEmpty_iff, hr]), if_neg (by simp [hr])]
    simp

theorem pyStripR_idem (l : PyStr) : pyStripR (pyStripR l) = pyStripR l := by
  simp [pyStripR, dropWhile_idem]

theorem pyStripL_eq_self_iff_head (l : PyStr) :
    (∀ c r, l = c :: r → isPySpace c = false) → pyStripL l = l := by
  intro h
  cases l with
  | nil => rfl
  | cons c r => simp [pyStripL, List.dropWhile, h c r rfl]

theorem pyStrip_idem (l : PyStr) : pyStrip (pyStrip l) = pyStrip l := by
  have hx : pyStripL (pyStripL l) = pyStripL l := pyStripL_idem l
  have hhead : ∀ c r, pyStripL l = c :: r → isPySpace c = false := by
    intro c r hcr
    by_contra hc
    have : pyStripL (pyStripL l) = pyStripL r := by
      rw [hcr]; simp [pyStripL, List.dropWhile, eq_true_of_ne_false hc]
    rw [hx, hcr] at this
    have := congrArg List.length this
    have hlen := (List.dropWhile_sublist (l := r) isPySpace).length_le
    simp [pyStripL] at this
    omega
  show pyStripR (pyStripL (pyStripR (pyStripL l))) = pyStripR (pyStripL l)
  have key : pyStripL (pyStripR (pyStripL l)) = pyStripR (pyStripL l) := by
    cases hcase : pyStripL l with
    | nil => rfl
    | cons c r =>
      have hc : isPySpace c = false := hhead c r hcase
      rw [pyStripR_cons]
      by_cases hr : pyStripR r = []
      · rw [if_pos hr, if_neg (by simp [hc])]
        simp [pyStripL, List.dropWhile, hc]
      · rw [if_neg hr]
        simp [pyStripL, List.dropWhile, hc]
  rw [key, pyStripR_idem]

/-- C4 (amended): a colon-free input string is the one treated as an implied
numeric field whose display name is the whole (stripped) string, and it does
render a numeric control; an input whose tag before the first colon is not a
recognized kind parses to that tag as kind and renders no control at all
(inert empty markup), rather than falling back to a numeric control. -/
theorem unknown_kind_fallback (s : PyStr) (input_idx : Nat) (button_id : PyStr)
    (rng : Rng) :
    (s ≠ [] → ':' ∉ s →
      parse_input_type_name s = (some (S "num"), some (pyStrip s)) ∧
      (parse_input_field s input_idx button_id rng).1 ≠ []) ∧
    (∀ t n, parse_input_type_name s = (some t, some n) →
      t ∉ [S "num", S "v_num", S "txt", S "bol", S "col", S "v_bol", S "img", S "list"] →
      parse_input_field s input_idx button_id rng = ([], rng)) := by
  constructor
  · intro hne hcolon
    have hsplit : splitFirst ':' (pyStrip s) = none :=
      (splitFirst_eq_none_iff _).mpr (fun h => hcolon (mem_of_mem_pyStrip h))
    have htn : parse_input_type_name s = (some (S "num"), some (pyStrip s)) := by
      simp only [parse_input_type_name, if_neg hne, hsplit, pyStrip_idem]
    refine ⟨htn, ?_⟩
    have ht : (parse_input_spec s).1 = some (S "num") := by
      simp only [parse_input_spec, htn]
    simp only [parse_input_field, ht]
    rw [if_neg (by decide), if_neg (by decide), if_pos True.intro]
    exact inputRowHtml_ne_nil _ _ _
  · intro t n htn hmem
    have ht : (parse_input_spec s).1 = some t := by
      simp only [parse_input_spec, htn]
    have hof : ∀ k : PyStr, k ∈ [S "num", S "v_num", S "txt", S "bol", S "col",
        S "v_bol", S "img", S "list"] → ¬((parse_input_spec s).1 = some k) := by
      intro k hkmem hcontra
      rw [ht, Option.some.injEq] at hcontra
      exact hmem (hcontra ▸ hkmem)
    have h1 := hof (S "list") (by simp)
    by_cases hte : t = []
    · have h2 : (parse_input_spec s).1 = none ∨ (parse_input_spec s).1 = some [] :=
        Or.inr (by rw [ht, hte])
      simp only [parse_input_field, if_neg h1, if_pos h2]
    · have h2 : ¬((parse_input_spec s).1 = none ∨ (parse_input_spec s).1 = some []) := by
        rw [ht]
        simp only [Option.some.injEq]
        rintro (h | h)
        · exact Option.noConfusion h
        · exact hte h
      have hnum := hof (S "num") (by simp)
      have hvnum := hof (S "v_num") (by simp)
      have htxt := hof (S "txt") (by simp)
      have hbol := hof (S "bol") (by simp)
      have hcol := hof (S "col") (by simp)
      have hvbol := hof (S "v_bol") (by simp)
      have himg := hof (S "img") (by simp)
      simp only [parse_input_field, if_neg h1, if_neg h2, if_neg hnum, if_neg hvnum,
        if_neg htxt, if_neg hbol, if_neg hcol, if_neg hvbol, if_neg himg]

/-- Witness for C4's amended theorem: a bare name renders a numeric control,
an unknown tag renders nothing. -/
theorem unknown_kind_fallback_witness :
    (parse_input_type_name (S "Speed") = (some (S "num"), some (S "Speed")) ∧
      (parse_input_field (S "Speed") 1 (S "btn0") []).1 ≠ []) ∧
    parse_input_field (S "foo:Bar") 1 (S "btn0") [] = ([], []) :=
  ⟨(unknown_kind_fallback (S "Speed") 1 (S "btn0") []).1 (by decide) (by decide),
   (unknown_kind_fallback (S "foo:Bar") 1 (S "btn0") []).2 (S "foo") (S "Bar")
     (by decide) (by decide)⟩

/-- C4 counterexample: for `foo:Bar` — whose tag `foo` is not recognized —
the parser does NOT treat the whole string as a numeric-kind field: it
returns kind `foo` with name `Bar`, and `parse_input_field` produces no
control markup at all (contradicting the claimed numeric control named by
the entire string). -/
theorem unknown_kind_fallback_cex :
    parse_input_type_name (S "foo:Bar") = (some (S "foo"), some (S "Bar")) ∧
    (S "foo" : PyStr) ≠ S "num" ∧
    (some (S "foo"), some (S "Bar")) ≠ (some (S "num"), some (S "foo:Bar")) ∧
    (parse_input_field (S "foo:Bar") 1 (S "btn0") []).1 = [] := by
  refine ⟨by decide, by decide, by decide, by decide⟩

/-! ### C2: the scaling rule -/

theorem zRoundHalfEven_le_half (a b : ℤ) (hb : 0 < b) :
    |((zRoundHalfEven a b : ℤ) : ℚ) - (a : ℚ) / (b : ℚ)| ≤ 1 / 2 := by
  have hfd : a.fdiv b = a / b := Int.fdiv_eq_ediv a hb.le
  have hr : a - a / b * b = a % b := by rw [Int.emod_def]; ring
  have h0 : (0 : ℤ) ≤ a % b := Int.emod_nonneg a hb.ne'
  have h1 : a % b < b := Int.emod_lt_of_pos a hb
  have hbq : (0 : ℚ) < (b : ℚ) := by exact_mod_cast hb
  have ha : (a : ℚ) = ((a / b : ℤ) : ℚ) * (b : ℚ) + ((a % b : ℤ) : ℚ) := by
    exact_mod_cast (Int.ediv_add_emod a b).symm.trans (by ring)
  have hdiv : (a : ℚ) / (b : ℚ) = ((a / b : ℤ) : ℚ) + ((a % b : ℤ) : ℚ) / (b : ℚ) := by
    rw [ha]; field_simp
  have h0q : (0 : ℚ) ≤ ((a % b : ℤ) : ℚ) := by exact_mod_cast h0
  have h1q : ((a % b : ℤ) : ℚ) < (b : ℚ) := by exact_mod_cast h1
  have hlt1 : ((a % b : ℤ) : ℚ) / (b : ℚ) < 1 := (div_lt_one hbq).mpr h1q
  simp only [zRoundHalfEven, hfd, hr]
  split_ifs with hc1 hc2 hc3
  · have hcq : 2 * ((a % b : ℤ) : ℚ) < (b : ℚ) := by exact_mod_cast hc1
    rw [hdiv, abs_sub_comm,
      show ((a / b : ℤ) : ℚ) + ((a % b : ℤ) : ℚ) / (b : ℚ) - ((a / b : ℤ) : ℚ) =
        ((a % b : ℤ) : ℚ) / (b : ℚ) from by ring,
      abs_of_nonneg (div_nonneg h0q hbq.le), div_le_iff₀ hbq]
    linarith
  · have hcq : (b : ℚ) < 2 * ((a % b : ℤ) : ℚ) := by exact_mod_cast hc2
    have hge : 1 / 2 ≤ ((a % b : ℤ) : ℚ) / (b : ℚ) := by
      rw [le_div_iff₀ hbq]; linarith
    rw [Int.cast_add, Int.cast_one, hdiv,
      show ((a / b : ℤ) : ℚ) + 1 - (((a / b : ℤ) : ℚ) + ((a % b : ℤ) : ℚ) / (b : ℚ)) =
        1 - ((a % b : ℤ) : ℚ) / (b : ℚ) from by ring,
      abs_of_nonneg (by linarith)]
    linarith
  · have heq : 2 * ((a % b : ℤ) : ℚ) = (b : ℚ) := by
      exact_mod_cast le_antisymm (not_lt.mp hc2) (not_lt.mp hc1)
    have hhalf : ((a % b : ℤ) : ℚ) / (b : ℚ) = 1 / 2 := by
      rw [div_eq_iff hbq.ne']; linarith
    rw [hdiv, abs_sub_comm,
      show ((a / b : ℤ) : ℚ) + ((a % b : ℤ) : ℚ) / (b : ℚ) - ((a / b : ℤ) : ℚ) =
        ((a % b : ℤ) : ℚ) / (b : ℚ) from by ring,
      hhalf, abs_of_nonneg] <;> norm_num
  · have heq : 2 * ((a % b : ℤ) : ℚ) = (b : ℚ) := by
      exact_mod_cast le_antisymm (not_lt.mp hc2) (not_lt.mp hc1)
    have hhalf : ((a % b : ℤ) : ℚ) / (b : ℚ) = 1 / 2 := by
      rw [div_eq_iff hbq.ne']; linarith
    rw [Int.cast_add, Int.cast_one, hdiv,
      show ((a / b : ℤ) : ℚ) + 1 - (((a / b : ℤ) : ℚ) + ((a % b : ℤ) : ℚ) / (b : ℚ)) =
        1 - ((a % b : ℤ) : ℚ) / (b : ℚ) from by ring,
      hhalf, show (1 : ℚ) - 1 / 2 = 1 / 2 from by norm_num, abs_of_nonneg] <;> norm_num

theorem pyRoundDyadic_le_half (p : ℤ × ℤ) :
    |((pyRoundDyadic p.1 p.2 : ℤ) : ℚ) - dyVal p| ≤ 1 / 2 := by
  obtain ⟨m, g⟩ := p
  by_cases hg : 0 ≤ g
  · simp only [pyRoundDyadic, dyVal, if_pos hg]
    have hc : ((m * 2 ^ g.toNat : ℤ) : ℚ) = (m : ℚ) * 2 ^ g.toNat := by push_cast; ring
    rw [hc, sub_self, abs_zero]
    norm_num
  · simp only [pyRoundDyadic, dyVal, if_neg hg]
    have hb : (0 : ℤ) < (2 : ℤ) ^ (-g).toNat := by positivity
    have h := zRoundHalfEven_le_half m ((2 : ℤ) ^ (-g).toNat) hb
    rwa [show (((2 : ℤ) ^ (-g).toNat : ℤ) : ℚ) = (2 : ℚ) ^ (-g).toNat from by push_cast; ring]
      at h

/-- C2 (amended): when both fields parse as integers and the width is neither
200 nor 0, the program evaluates `int(round(height * (200 / width)))` in
IEEE-754 binary64: either an uncaught `OverflowError` escapes (the parsed
height is too large to convert to a double, or the double product is
infinite), or the result is width 200 with a height that is the ties-to-even
rounding of — and so within half a unit of — the double product of the
converted height with the double quotient `200 / width` (not, in general, of
the exact rational ratio); when the width parses to exactly 200, the parsed
integer pair is returned (a numeric no-op); when either field fails integer
parsing, the raw string pair is returned unchanged and nothing is raised; but
when the width parses to 0 the function raises `ZeroDivisionError` (modelled
as `none`) instead of returning a scaled pair. -/
theorem scale_dimensions_spec (w h : PyStr) :
    (∀ wi hi : ℤ, pyInt w = some wi → pyInt h = some hi → wi ≠ 200 → wi ≠ 0 →
      scale_dimensions w h = none ∨
      ∃ s fh p : ℤ × ℤ,
        flFrac (if wi < 0 then -200 else 200) wi.natAbs = some s ∧
        flFrac hi 1 = some fh ∧
        mulF fh s = some p ∧
        scale_dimensions w h = some (.int 200, .int (pyRoundDyadic p.1 p.2)) ∧
        |((pyRoundDyadic p.1 p.2 : ℤ) : ℚ) - dyVal p| ≤ 1 / 2) ∧
    (∀ hi : ℤ, pyInt w = some 200 → pyInt h = some hi →
      scale_dimensions w h = some (.int 200, .int hi)) ∧
    ((pyInt w = none ∨ pyInt h = none) →
      scale_dimensions w h = some (.str w, .str h)) ∧
    (∀ wi hi : ℤ, pyInt w = some wi → pyInt h = some hi → wi = 0 →
      scale_dimensions w h = none) := by
  refine ⟨?_, ?_, ?_, ?_⟩
  · intro wi hi hw hh h200 h0
    simp only [scale_dimensions, hw, hh, if_neg h200, if_neg h0]
    cases hs : flFrac (if wi < 0 then -200 else 200) wi.natAbs with
    | none =>
      left
      dsimp only
    | some s =>
      dsimp only
      cases hfh : flFrac hi 1 with
      | none =>
        left
        dsimp only
      | some fh =>
        dsimp only
        cases hp : mulF fh s with
        | none =>
          left
          dsimp only
        | some p =>
          dsimp only
          right
          exact ⟨s, fh, p, rfl, rfl, hp, rfl, pyRoundDyadic_le_half p⟩
  · intro hi hw hh
    simp only [scale_dimensions, hw, hh, if_true]
  · rintro (hw | hh)
    · cases hh2 : pyInt h <;> simp [scale_dimensions, hw, hh2]
    · cases hw2 : pyInt w <;> simp [scale_dimensions, hw2, hh]
  · intro wi hi hw hh h0
    subst h0
    simp only [scale_dimensions, hw, hh, if_neg (by decide : ¬((0 : ℤ) = 200)), if_true]

set_option maxRecDepth 100000 in
/-- Witness for C2's amended theorem at concrete inputs, including the spec's
own example `400 × 100 ↦ 200 × 50`, and the evaluated model on `48 × 15`
(`63`: the double product is `62.500000000000007`). -/
theorem scale_dimensions_spec_witness :
    (scale_dimensions (S "400") (S "100") = none ∨
      ∃ s fh p : ℤ × ℤ,
        flFrac (if (400 : ℤ) < 0 then -200 else 200) (400 : ℤ).natAbs = some s ∧
        flFrac 100 1 = some fh ∧
        mulF fh s = some p ∧
        scale_dimensions (S "400") (S "100") = some (.int 200, .int (pyRoundDyadic p.1 p.2)) ∧
        |((pyRoundDyadic p.1 p.2 : ℤ) : ℚ) - dyVal p| ≤ 1 / 2) ∧
    scale_dimensions (S "400") (S "100") = some (.int 200, .int 50) ∧
    scale_dimensions (S "48") (S "15") = some (.int 200, .int 63) ∧
    scale_dimensions (S "200") (S "77") = some (.int 200, .int 77) ∧
    scale_dimensions (S "abc") (S "5") = some (.str (S "abc"), .str (S "5")) ∧
    scale_dimensions (S "0") (S "100") = none :=
  ⟨(scale_dimensions_spec (S "400") (S "100")).1 400 100 (by decide) (by decide)
      (by decide) (by decide),
    by decide, by decide,
    (scale_dimensions_spec (S "200") (S "77")).2.1 77 (by decide) (by decide),
    (scale_dimensions_spec (S "abc") (S "5")).2.2.1 (Or.inl (by decide)),
    (scale_dimensions_spec (S "0") (S "100")).2.2.2 0 100 (by decide) (by decide) rfl⟩

set_option maxRecDepth 100000 in
/-- C2 counterexamples to the original claim.  First, `("0", "100")`: both
fields parse as integers and the width is not 200, yet `scale_dimensions`
returns no scaled pair — it raises an uncaught `ZeroDivisionError` (the
`except` clause only catches `ValueError` and `TypeError`).  Second,
`("48", "15")`: the program yields height 63, but the exact ratio
`15 · 200/48 = 3000/48 = 62.5` rounded to the nearest whole unit with ties to
even is 62 — the double product `62.500000000000007` breaks the tie upward,
so "rounded to the nearest whole unit (ties to even) of the exact ratio" is
false of the program.  Third, `("3", "10^17")`: the returned height is more
than half a unit away from the exact ratio `2·10^19/3` (twice the absolute
difference of `3·height` from `2·10^19` exceeds 3), so the height is not a
nearest whole unit of the exact proportional value at all. -/
theorem scale_dimensions_cex :
    (pyInt (S "0") = some 0 ∧ pyInt (S "100") = some 100 ∧ ((0 : ℤ) ≠ 200) ∧
      scale_dimensions (S "0") (S "100") = none) ∧
    (scale_dimensions (S "48") (S "15") = some (.int 200, .int 63) ∧
      zRoundHalfEven (15 * 200) 48 = 62 ∧ ((63 : ℤ) ≠ 62)) ∧
    (scale_dimensions (S "3") (S "100000000000000000") =
        some (.int 200, .int 6666666666666667008) ∧
      2 * |3 * (6666666666666667008 : ℤ) - 20000000000000000000| > 3) :=
  ⟨⟨by decide, by decide, by decide, by decide⟩,
    ⟨by decide, by decide, by decide⟩,
    ⟨by decide, by decide⟩⟩

/-! ### C3: round-trip of `kind:Name(default)` -/

/-- Parsing a string assembled as `kind ++ ":" ++ name ++ "(" ++ default ++ ")"`
(kind colon-free, name newline-free, default parenthesis-free) returns the
stripped kind, the stripped name and the stripped default.  The name must be
newline-free because the `.*` before `\(` in the default-extraction regex
does not match `\n`. -/
theorem parse_input_spec_concat (k nm d : PyStr) (hk : ':' ∉ k)
    (hd1 : '(' ∉ d) (hd2 : ')' ∉ d) (hnl : '\n' ∉ nm) :
    parse_input_spec (k ++ ':' :: (nm ++ '(' :: (d ++ [')']))) =
      (some (pyStrip k), some (pyStrip nm), some (pyStrip d)) := by
  have hcolon : isPySpace ':' = false := by decide
  have hparen : isPySpace '(' = false := by decide
  have hrparen : isPySpace ')' = false := by decide
  have hne : k ++ ':' :: (nm ++ '(' :: (d ++ [')'])) ≠ [] := by
    cases k <;> simp
  have hL : pyStripL (k ++ ':' :: (nm ++ '(' :: (d ++ [')']))) =
      pyStripL k ++ ':' :: (nm ++ '(' :: (d ++ [')'])) :=
    pyStripL_append_cons hcolon _ _
  have hR : pyStripR (pyStripL k ++ ':' :: (nm ++ '(' :: (d ++ [')']))) =
      pyStripL k ++ ':' :: (nm ++ '(' :: (d ++ [')'])) := by
    have h := pyStripR_concat hrparen (pyStripL k ++ ':' :: (nm ++ '(' :: d))
    simpa using h
  have hstrip : pyStrip (k ++ ':' :: (nm ++ '(' :: (d ++ [')']))) =
      pyStripL k ++ ':' :: (nm ++ '(' :: (d ++ [')'])) := by
    rw [pyStrip, hL, hR]
  have hsplit : splitFirst ':' (pyStripL k ++ ':' :: (nm ++ '(' :: (d ++ [')']))) =
      some (pyStripL k, nm ++ '(' :: (d ++ [')'])) :=
    splitFirst_append _ _ (fun hmem => hk (mem_of_mem_pyStripL hmem))
  have htn : parse_input_type_name (k ++ ':' :: (nm ++ '(' :: (d ++ [')']))) =
      (some (pyStrip k), some (pyStrip (nm ++ '(' :: (d ++ [')'])))) := by
    simp only [parse_input_type_name, if_neg hne, hstrip, hsplit, pyStrip_pyStripL]
  have hLn : pyStripL (nm ++ '(' :: (d ++ [')'])) = pyStripL nm ++ '(' :: (d ++ [')']) :=
    pyStripL_append_cons hparen _ _
  have hRn : pyStripR (pyStripL nm ++ '(' :: (d ++ [')'])) =
      pyStripL nm ++ '(' :: (d ++ [')']) := by
    have h := pyStripR_concat hrparen (pyStripL nm ++ '(' :: d)
    simpa using h
  have hN : pyStrip (nm ++ '(' :: (d ++ [')'])) = pyStripL nm ++ '(' :: (d ++ [')']) := by
    rw [pyStrip, hLn, hRn]
  have hconcat : pyStripL nm ++ '(' :: (d ++ [')']) = (pyStripL nm ++ '(' :: d) ++ [')'] := by
    simp
  have hlast : (pyStripL nm ++ '(' :: (d ++ [')'])).getLast? = some ')' := by
    rw [hconcat]; exact List.getLast?_concat _
  have hmemp : '(' ∈ pyStripL nm ++ '(' :: (d ++ [')']) := by simp
  have hbody : (pyStripL nm ++ '(' :: (d ++ [')'])).dropLast = pyStripL nm ++ '(' :: d := by
    rw [hconcat]; exact List.dropLast_concat
  have hrev : (pyStripL nm ++ '(' :: d).reverse =
      d.reverse ++ '(' :: (pyStripL nm).reverse := by
    simp
  have hall : ∀ x ∈ d.reverse, (fun c : Char => (c ≠ '(' : Bool)) x = true := by
    intro x hx
    have hxd : x ∈ d := List.mem_reverse.mp hx
    simp only [ne_eq, decide_eq_true_eq]
    rintro rfl
    exact hd1 hxd
  have htake : (d.reverse ++ '(' :: (pyStripL nm).reverse).takeWhile
      (fun c : Char => (c ≠ '(' : Bool)) = d.reverse := by
    rw [takeWhile_append_of_all _ _ hall, takeWhile_cons_of_not (by simp)]
    simp
  have hdrop : (d.reverse ++ '(' :: (pyStripL nm).reverse).drop (d.reverse.length + 1) =
      (pyStripL nm).reverse := by
    have h2 : d.reverse ++ '(' :: (pyStripL nm).reverse =
        (d.reverse ++ ['(']) ++ (pyStripL nm).reverse := by simp
    have h3 : d.reverse.length + 1 = (d.reverse ++ ['(']).length := by simp
    rw [h2, h3, List.drop_left]
  have hed : extractDefault (pyStripL nm ++ '(' :: (d ++ [')'])) =
      (pyStrip nm, some (pyStrip d)) := by
    have hcond : ¬(')' ∈ d ∨ '\n' ∈ pyStripL nm) := by
      rintro (hc | hc)
      · exact hd2 hc
      · exact hnl (mem_of_mem_pyStripL hc)
    simp only [extractDefault]
    rw [if_pos ⟨hlast, hmemp⟩, hbody, hrev, htake, hdrop]
    simp only [List.reverse_reverse]
    rw [if_neg hcond, pyStrip_pyStripL]
  simp only [parse_input_spec, htn, hN, hed]

/-- C3 (amended): for an input-spec string of the form `kind:Name(default)` —
kind colon-free, name newline-free, default parenthesis-free — parsing
recovers the display name and default exactly PROVIDED name and default carry
no surrounding whitespace (are `strip`-invariant); in general the parser
returns them stripped, and a name with an embedded newline is not split at
all (the `.*` of the extraction regex does not match `\n`), the whole
`Name(default)` text remaining the name. -/
theorem input_spec_roundtrip (k nm d : PyStr) (hk : ':' ∉ k)
    (hd1 : '(' ∉ d) (hd2 : ')' ∉ d) (hnl : '\n' ∉ nm)
    (hnm : pyStrip nm = nm) (hdd : pyStrip d = d) :
    parse_input_spec (k ++ ':' :: (nm ++ '(' :: (d ++ [')']))) =
      (some (pyStrip k), some nm, some d) := by
  rw [parse_input_spec_concat k nm d hk hd1 hd2 hnl, hnm, hdd]

/-- Witness for C3's amended theorem: `num:Speed(80)` parses back to
`Speed` / `80` exactly. -/
theorem input_spec_roundtrip_witness :
    parse_input_spec (S "num" ++ ':' :: (S "Speed" ++ '(' :: (S "80" ++ [')']))) =
      (some (pyStrip (S "num")), some (S "Speed"), some (S "80")) :=
  input_spec_roundtrip (S "num") (S "Speed") (S "80")
    (by decide) (by decide) (by decide) (by decide) (by decide) (by decide)

/-- C3 counterexamples to the exact round-trip.  First, `num:A( 5 )` is of
the form `kind:Name(default)` with the parenthesis-free default ` 5 `, yet
parsing returns the default stripped to `5`, so re-serializing the parsed
name/default yields `A(5)`, not the original pair — the exact round-trip
fails on whitespace-padded defaults.  Second, the newline-carrying
(and `strip`-invariant) name `A\nB` with default `5`: the regex's `.*` does
not match the newline, so the program extracts no default at all and keeps
the name as the literal `A\nB(5)` rather than recovering `A\nB` / `5`. -/
theorem input_spec_roundtrip_cex :
    ((S "num:A( 5 )") = S "num" ++ ':' :: (S "A" ++ '(' :: (S " 5 " ++ [')'])) ∧
      parse_input_spec (S "num:A( 5 )") = (some (S "num"), some (S "A"), some (S "5")) ∧
      parse_input_spec (S "num:A( 5 )") ≠ (some (S "num"), some (S "A"), some (S " 5 "))) ∧
    ((S "num:A\nB(5)") = S "num" ++ ':' :: (S "A\nB" ++ '(' :: (S "5" ++ [')'])) ∧
      pyStrip (S "A\nB") = S "A\nB" ∧ pyStrip (S "5") = S "5" ∧
      parse_input_spec (S "num:A\nB(5)") =
        (some (S "num"), some (S "A\nB(5)"), none) ∧
      parse_input_spec (S "num:A\nB(5)") ≠
        (some (S "num"), some (S "A\nB"), some (S "5"))) := by
  refine ⟨⟨by decide, by decide, by decide⟩,
    ⟨by decide, by decide, by decide, by decide, by decide⟩⟩

/-! ### C9: element identifiers on an index page are disjoint across assets -/

theorem natReprAux_congr : ∀ f1 n, n < f1 → ∀ f2, n < f2 →
    natReprAux f1 n = natReprAux f2 n := by
  intro f1
  induction f1 with
  | zero => intro n h; omega
  | succ f ih =>
    intro n hn f2 hf2
    cases f2 with
    | zero => omega
    | succ f2x =>
      simp only [natReprAux]
      by_cases h10 : n < 10
      · simp [h10]
      · simp only [if_neg h10]
        congr 1
        exact ih (n / 10) (by omega) f2x (by omega)

theorem natReprRev_lt {n : Nat} (h : n < 10) : natReprRev n = [digitChar n] := by
  simp [natReprRev, natReprAux, h]

theorem natReprRev_ge {n : Nat} (h : ¬(n < 10)) :
    natReprRev n = digitChar (n % 10) :: natReprRev (n / 10) := by
  show natReprAux (n + 1) n = _
  simp only [natReprAux, if_neg h]
  congr 1
  exact natReprAux_congr n (n / 10) (by omega) _ (by omega)

theorem natReprRev_ne_nil (n : Nat) : natReprRev n ≠ [] := by
  by_cases h : n < 10
  · rw [natReprRev_lt h]; simp
  · rw [natReprRev_ge h]; simp

theorem digitChar_isDigit (n : Nat) : (digitChar n).isDigit = true := by
  have key : ∀ r, r < 10 → (Char.ofNat (48 + r)).isDigit = true := by decide
  exact key (n % 10) (Nat.mod_lt _ (by omega))

theorem digitChar_inj {a b : Nat} (ha : a < 10) (hb : b < 10)
    (h : digitChar a = digitChar b) : a = b := by
  have key : ∀ x, x < 10 → ∀ y, y < 10 → digitChar x = digitChar y → x = y := by decide
  exact key a ha b hb h

theorem natReprRev_inj : ∀ m n : Nat, natReprRev m = natReprRev n → m = n := by
  intro m
  induction m using Nat.strong_induction_on with
  | _ m ih =>
    intro n h
    by_cases hm : m < 10 <;> by_cases hn : n < 10
    · rw [natReprRev_lt hm, natReprRev_lt hn] at h
      injection h with h1 h2
      exact digitChar_inj hm hn h1
    · rw [natReprRev_lt hm, natReprRev_ge hn] at h
      injection h with h1 h2
      exact absurd h2.symm (natReprRev_ne_nil _)
    · rw [natReprRev_ge hm, natReprRev_lt hn] at h
      injection h with h1 h2
      exact absurd h2 (natReprRev_ne_nil _)
    · rw [natReprRev_ge hm, natReprRev_ge hn] at h
      injection h with h1 h2
      have hmod : m % 10 = n % 10 :=
        digitChar_inj (Nat.mod_lt _ (by omega)) (Nat.mod_lt _ (by omega)) h1
      have hdiv : m / 10 = n / 10 := ih (m / 10) (Nat.div_lt_self (by omega) (by omega)) _ h2
      omega

theorem natRepr_inj {m n : Nat} (h : natRepr m = natRepr n) : m = n :=
  natReprRev_inj m n (List.reverse_injective h)

theorem natReprRev_all_digits : ∀ n : Nat, ∀ c ∈ natReprRev n, c.isDigit = true := by
  intro n
  induction n using Nat.strong_induction_on with
  | _ n ih =>
    intro c hc
    by_cases h : n < 10
    · rw [natReprRev_lt h] at hc
      simp at hc
      subst hc
      exact digitChar_isDigit n
    · rw [natReprRev_ge h] at hc
      rcases List.mem_cons.mp hc with rfl | hc
      · exact digitChar_isDigit (n % 10)
      · exact ih (n / 10) (Nat.div_lt_self (by omega) (by omega)) c hc

theorem underscore_not_mem_natRepr (n : Nat) : '_' ∉ natRepr n := by
  intro h
  have hd := natReprRev_all_digits n '_' (List.mem_reverse.mp h)
  exact absurd hd (by decide)

theorem append_underscore_inj : ∀ (a b x y : PyStr), '_' ∉ a → '_' ∉ b →
    a ++ '_' :: x = b ++ '_' :: y → a = b ∧ x = y := by
  intro a
  induction a with
  | nil =>
    intro b x y ha hb h
    cases b with
    | nil =>
      simp only [List.nil_append] at h
      injection h with h1 h2
      exact ⟨rfl, h2⟩
    | cons c bs =>
      simp only [List.nil_append, List.cons_append] at h
      injection h with h1 h2
      exact absurd (by rw [← h1]; exact List.mem_cons_self _ _) hb
  | cons c as ih =>
    intro b x y ha hb h
    cases b with
    | nil =>
      simp only [List.nil_append, List.cons_append] at h
      injection h with h1 h2
      exact absurd (by rw [h1]; exact List.mem_cons_self _ _) ha
    | cons c2 bs =>
      simp only [List.cons_append] at h
      injection h with h1 h2
      obtain ⟨hab, hxy⟩ := ih bs x y (fun hm => ha (List.mem_cons_of_mem _ hm))
        (fun hm => hb (List.mem_cons_of_mem _ hm)) h2
      exact ⟨by rw [h1, hab], hxy⟩

/-- Whether `parse_input_field` renders markup (and hence an element id) for
this raw input value. -/
def rendersControl (v : PyStr) : Bool :=
  decide ((parse_input_spec v).1 ∈ renderedKinds)

/-- The element identifiers `make_main_canvas idx row` emits: the canvas id
`canvas{idx}`, the trigger button id `btn{idx}` when a trigger is present,
and one field id `btn{idx}_input{i}` per rendered input control. -/
def elemIds (idx : Nat) (row : Row) : List PyStr :=
  (S "canvas" ++ natRepr idx) ::
  ((if pyTruthy row.trigger then [S "btn" ++ natRepr idx] else []) ++
   (INPUT_RANGE.filterMap fun i =>
     match row.inputs i with
     | some v =>
       if pyStrip v ≠ [] ∧ rendersControl v then
         some (S "btn" ++ natRepr idx ++ S "_input" ++ natRepr i)
       else none
     | none => none))

theorem mem_elemIds_shape {a : PyStr} {idx : Nat} {row : Row}
    (h : a ∈ elemIds idx row) :
    a = S "canvas" ++ natRepr idx ∨ a = S "btn" ++ natRepr idx ∨
    ∃ i, a = S "btn" ++ natRepr idx ++ S "_input" ++ natRepr i := by
  simp only [elemIds, List.mem_cons, List.mem_append, List.mem_filterMap] at h
  rcases h with rfl | h | h
  · exact Or.inl rfl
  · by_cases ht : pyTruthy row.trigger
    · rw [if_pos ht] at h
      simp at h
      exact Or.inr (Or.inl h)
    · rw [if_neg ht] at h
      simp at h
  · obtain ⟨i, _, hfm⟩ := h
    cases hv : row.inputs i with
    | none => simp [hv] at hfm
    | some v =>
      simp only [hv] at hfm
      by_cases hc : pyStrip v ≠ [] ∧ rendersControl v = true
      · rw [if_pos hc] at hfm
        injection hfm with hfm
        exact Or.inr (Or.inr ⟨i, hfm.symm⟩)
      · rw [if_neg hc] at hfm
        exact absurd hfm (by simp)

theorem btn_input_assoc (m i : Nat) :
    S "btn" ++ natRepr m ++ S "_input" ++ natRepr i =
      S "btn" ++ (natRepr m ++ '_' :: (S "input" ++ natRepr i)) := by
  have hu : S "_input" = '_' :: S "input" := by decide
  rw [hu]
  simp [List.append_assoc]

theorem canvas_cons : S "canvas" = 'c' :: S "anvas" := by decide

theorem btn_cons : S "btn" = 'b' :: S "tn" := by decide

/-- C9: on one index page, the element-identifier sets of two assets at
distinct positions are disjoint — every id embeds the asset's position
index, whose decimal representation determines it uniquely. -/
theorem element_ids_disjoint (idx jdx : Nat) (r1 r2 : Row) (hne : idx ≠ jdx) :
    ∀ a ∈ elemIds idx r1, a ∉ elemIds jdx r2 := by
  intro a ha hb
  rcases mem_elemIds_shape ha with h1 | h1 | ⟨i, h1⟩ <;>
    rcases mem_elemIds_shape hb with h2 | h2 | ⟨j, h2⟩ <;>
    (try rw [btn_input_assoc] at h1) <;> (try rw [btn_input_assoc] at h2)
  all_goals have h3 := h1.symm.trans h2
  -- canvas / canvas
  · exact hne (natRepr_inj (List.append_cancel_left h3))
  -- canvas / btn
  · rw [canvas_cons, btn_cons] at h3
    simp only [List.cons_append] at h3
    injection h3 with hc _
    exact absurd hc (by decide)
  -- canvas / input
  · rw [canvas_cons, btn_cons] at h3
    simp only [List.cons_append] at h3
    injection h3 with hc _
    exact absurd hc (by decide)
  -- btn / canvas
  · rw [canvas_cons, btn_cons] at h3
    simp only [List.cons_append] at h3
    injection h3 with hc _
    exact absurd hc (by decide)
  -- btn / btn
  · exact hne (natRepr_inj (List.append_cancel_left h3))
  -- btn / input
  · have h4 := List.append_cancel_left h3
    have h5 : '_' ∈ natRepr idx := by rw [h4]; simp
    exact absurd h5 (underscore_not_mem_natRepr idx)
  -- input / canvas
  · rw [canvas_cons, btn_cons] at h3
    simp only [List.cons_append] at h3
    injection h3 with hc _
    exact absurd hc (by decide)
  -- input / btn
  · have h4 := List.append_cancel_left h3
    have h5 : '_' ∈ natRepr jdx := by rw [← h4]; simp
    exact absurd h5 (underscore_not_mem_natRepr jdx)
  -- input / input
  · have h4 := List.append_cancel_left h3
    obtain ⟨heq, _⟩ := append_underscore_inj _ _ _ _
      (underscore_not_mem_natRepr idx) (underscore_not_mem_natRepr jdx) h4
    exact hne (natRepr_inj heq)

/-- A concrete row used by witnesses. -/
def sampleRow : Row :=
  { src := S "demo.riv", width := S "200", height := S "100", duration := S "4",
    loop := S "yes", background := S "dark", state_machine := S "State Machine 1",
    artboard := none, trigger := some (S "Go"),
    inputs := fun i => if i = 1 then some (S "num:Speed(80)") else none }

/-- Witness for C9: the canvas id of asset 0 is among asset 0's ids and, by
the disjointness theorem, not among asset 1's. -/
theorem element_ids_disjoint_witness :
    (S "canvas" ++ natRepr 0) ∈ elemIds 0 sampleRow ∧
    (S "canvas" ++ natRepr 0) ∉ elemIds 1 sampleRow :=
  ⟨by decide, element_ids_disjoint 0 1 sampleRow sampleRow (by decide) _ (by decide)⟩

/-! ### Page composition (`make_main_canvas`, `make_script`, detail pages) -/

/-- One scan step of `re.sub(r'_v\d+[a-zA-Z0-9]*', '', name)` with explicit
fuel (any `fuel > length` suffices): at `_v<digit>` the matched maximal
alphanumeric run is removed and scanning resumes after it; otherwise one
character is emitted. -/
def subVersionTagAux : Nat → PyStr → PyStr
  | 0, l => l
  | fuel + 1, l =>
    match l with
    | [] => []
    | '_' :: 'v' :: rest =>
      match rest with
      | c :: _ =>
        if c.isDigit then subVersionTagAux fuel (rest.dropWhile Char.isAlphanum)
        else '_' :: subVersionTagAux fuel ('v' :: rest)
      | [] => '_' :: subVersionTagAux fuel ['v']
    | c :: rest => c :: subVersionTagAux fuel rest

/-- `re.sub(r'_v\d+[a-zA-Z0-9]*', '', name)`. -/
def subVersionTag (l : PyStr) : PyStr := subVersionTagAux (l.length + 1) l

/-- The root part of `os.path.splitext` for a bare filename: split at the
last dot unless every character before it is a dot (a leading-dots name like
`.riv` keeps its "extension"). -/
def splitextRoot (p : PyStr) : PyStr :=
  let revp := p.reverse
  let afterDot := revp.takeWhile (fun c => c ≠ '.')
  if afterDot.length = revp.length then p
  else
    let root := (revp.drop (afterDot.length + 1)).reverse
    if root.any (fun c => c ≠ '.') then root else p

/-- `get_display_name(src)`: drop the extension, strip a `_v…` version
suffix, replace underscores by spaces. -/
def get_display_name (src : PyStr) : PyStr :=
  (subVersionTag (splitextRoot src)).map (fun c => if c = '_' then ' ' else c)

/-- `make_main_link(row)`. -/
def make_main_link (row : Row) : PyStr :=
  let page_name := splitextRoot row.src ++ S ".html"
  S "<a href=\"pages/" ++ page_name ++ S "\" style=\"color: #464646;\">" ++
    get_display_name row.src ++ S "</a>"

/-- `make_main_canvas(idx, row)`: one gallery tile.  `none` models the
uncaught `ZeroDivisionError` escaping from `scale_dimensions`; the random
stream is consumed by the colour controls collected before scaling runs. -/
def make_main_canvas (idx : Nat) (row : Row) (rng : Rng) : Option (PyStr × Rng) :=
  let canvas_id := S "canvas" ++ natRepr idx
  let button_id := S "btn" ++ natRepr idx
  let button_html :=
    if pyTruthy row.trigger then
      S "<button id=\"" ++ button_id ++
        S "\" class=\"rive-btn\" style=\"margin-left:auto;\">Trigger</button>"
    else []
  let ci := collect_input_fields row button_id rng
  let inputs_html :=
    if ci.1 ≠ [] then
      S "\n        <div class=\"controls-column\" style=\"display:flex;flex-direction:column;align-items:flex-end;gap:8px;margin-top:8px;\">\n            " ++
        ci.1 ++ S "\n        </div>\n        "
    else []
  match scale_dimensions row.width row.height with
  | none => none
  | some wh =>
    let desc :=
      S "\n      <div style=\"display: flex; flex-direction: column; align-items: stretch;\">\n        <div style=\"display: flex; align-items: center; width: 100%;\">\n          <div>" ++
      make_main_link row ++ S "</div>\n          " ++ button_html ++
      S "\n        </div>\n        " ++ inputs_html ++ S "\n      </div>\n    "
    some (S "\n      <div class=\"animation-container\">\n        <canvas id=\"" ++
      canvas_id ++ S "\" width=\"" ++ pyValStr wh.1 ++ S "\" height=\"" ++
      pyValStr wh.2 ++
      S "\"></canvas>\n        <div class=\"description\">\n          " ++ desc ++
      S "\n        </div>\n      </div>\n    ", ci.2)

/-- `make_input_js(input_type, …)`: the per-kind state-machine binding JS. -/
def make_input_js (input_type input_name input_id obj_var field_var : PyStr) : PyStr :=
  if input_type = S "num" then
    S "\n    // Initial assignment from default value (if any)\n    let initVal = parseFloat(" ++
    field_var ++ S ".value);\n    if (!isNaN(initVal)) " ++ obj_var ++
    S ".value = initVal;\n    " ++ field_var ++
    S ".addEventListener(\"input\", () => \x7b\n      let val = parseFloat(" ++
    field_var ++ S ".value);\n      if (!isNaN(val)) " ++ obj_var ++
    S ".value = val;\n    \x7d);"
  else if input_type = S "bol" then
    S "\n    " ++ field_var ++ S ".addEventListener(\"change\", () => \x7b\n      " ++
    obj_var ++ S ".value = " ++ field_var ++ S ".checked;\n    \x7d);"
  else if input_type = S "txt" then
    S "\n    " ++ field_var ++ S ".addEventListener(\"input\", () => \x7b\n      " ++
    obj_var ++ S ".value = " ++ field_var ++ S ".value;\n    \x7d);"
  else if input_type = S "col" then
    S "\n    " ++ field_var ++
    S ".addEventListener(\"input\", () => \x7b\n      let hex = " ++ field_var ++
    S ".value.replace(\"#\", \"\");\n      let argb = parseInt(\"FF\" + hex.toUpperCase(), 16);\n      " ++
    obj_var ++ S ".value = argb;\n    \x7d);"
  else []

/-- The per-input contribution of `generate_text_input_js` (view-model
bindings): the rendered JS text and whether it marks the block as needing the
`vmi` handle. -/
def gen_text_input_item (pfx : PyStr) (i : Nat) (input_value : PyStr) : PyStr × Bool :=
  let t := (parse_input_spec input_value).1
  let name_spec := (parse_input_spec input_value).2.1
  let input_name := name_spec.getD (S "None")
  let input_id := pfx ++ S "_input" ++ natRepr i
  let field_var := S "inputField" ++ pyTitle pfx ++ S "_" ++ natRepr i
  let letLine := S "    let " ++ field_var ++ S " = document.getElementById(\"" ++
    input_id ++ S "\");\n"
  if t = some (S "txt") then
    (letLine ++ S "    if (" ++ field_var ++ S " && vmi) \x7b\n      " ++ field_var ++
     S ".addEventListener(\"input\", () => \x7b\n        vmi.string(\"" ++ input_name ++
     S "\").value = " ++ field_var ++ S ".value;\n      \x7d);\n    \x7d\n", true)
  else if t = some (S "col") then
    (letLine ++ S "    if (" ++ field_var ++
     S " && vmi) \x7b\n      // Set initial color value\n      let hex = " ++ field_var ++
     S ".value.replace(\"#\", \"\");\n      let argb = parseInt(\"FF\" + hex.toUpperCase(), 16);\n      vmi.color(\"" ++
     input_name ++ S "\").value = argb;\n      " ++ field_var ++
     S ".addEventListener(\"input\", () => \x7b\n        let hex = " ++ field_var ++
     S ".value.replace(\"#\", \"\");\n        let argb = parseInt(\"FF\" + hex.toUpperCase(), 16);\n        vmi.color(\"" ++
     input_name ++ S "\").value = argb;\n      \x7d);\n    \x7d\n", true)
  else if t = some (S "v_num") then
    (letLine ++ S "    if (" ++ field_var ++
     S " && vmi) \x7b\n      // Update numeric ViewModel variable\n      " ++ field_var ++
     S ".addEventListener(\"input\", () => \x7b\n        let val = parseFloat(" ++ field_var ++
     S ".value);\n        if (!isNaN(val)) vmi.number(\"" ++ input_name ++
     S "\").value = val;\n      \x7d);\n      // Set initial value if present\n      let initVal = parseFloat(" ++
     field_var ++ S ".value);\n      if (!isNaN(initVal)) vmi.number(\"" ++ input_name ++
     S "\").value = initVal;\n    \x7d\n", true)
  else if t = some (S "v_bol") then
    (letLine ++ S "    if (" ++ field_var ++
     S " && vmi) \x7b\n      // Update boolean ViewModel variable\n      " ++ field_var ++
     S ".addEventListener(\"change\", () => \x7b\n        vmi.boolean(\"" ++ input_name ++
     S "\").value = " ++ field_var ++
     S ".checked;\n      \x7d);\n      // Set initial value\n      vmi.boolean(\"" ++
     input_name ++ S "\").value = " ++ field_var ++ S ".checked;\n    \x7d\n", true)
  else if t = some (S "img") then
    let ip := S "imgProp_" ++ pfx ++ S "_" ++ natRepr i
    let li := S "lastImg_" ++ pfx ++ S "_" ++ natRepr i
    let ib := S "imgBase_" ++ pfx ++ S "_" ++ natRepr i
    let lf := S "loadImg_" ++ pfx ++ S "_" ++ natRepr i
    (letLine ++ S "    if (" ++ field_var ++ S " && vmi) \x7b\n      const " ++ ip ++
     S " = vmi.image(\"" ++ input_name ++ S "\");\n      let " ++ li ++
     S " = null;\n      const " ++ ib ++
     S " = location.pathname.includes('/pages/') ? '../img/' : 'img/';\n\n      async function " ++
     lf ++ S "(filename) \x7b\n        const name = (filename || \"\").trim();\n        if (!name) return;\n        try \x7b\n          const res = await fetch(" ++
     ib ++ S " + name);\n          const bytes = new Uint8Array(await res.arrayBuffer());\n          if (!rive.decodeImage) \x7b\n            console.warn(\"rive.decodeImage is not available.\");\n            return;\n          \x7d\n          const decoded = await rive.decodeImage(bytes);\n          if (" ++
     li ++ S ") " ++ li ++ S ".unref();\n          " ++ ip ++ S ".value = decoded;\n          " ++
     li ++ S " = decoded;\n        \x7d catch (e) \x7b\n          console.error(\"Failed to load image:\", name, e);\n        \x7d\n      \x7d\n\n      " ++
     field_var ++ S ".addEventListener(\"change\", () => \x7b\n        " ++ lf ++ S "(" ++
     field_var ++
     S ".value);\n      \x7d);\n\n      // Initial load if a default or preset value exists\n      if (" ++
     field_var ++ S ".value && " ++ field_var ++ S ".value.trim() !== \"\") \x7b\n        " ++
     lf ++ S "(" ++ field_var ++ S ".value);\n      \x7d\n    \x7d\n", true)
  else if t = some (S "list") then
    match (match name_spec with
           | some ns => if ns ≠ [] then listBracketMatch ns else none
           | none => none) with
    | some lm =>
      let inner := parse_list_inner (pyStrip lm.2)
      let list_name_vmi := camel_to_words (pyStrip lm.1)
      (if inner.1 = S "num" then
        S "    if (vmi) \x7b\n      const listVar_" ++ natRepr i ++ S " = vmi.list(\"" ++
        list_name_vmi ++ S "\");\n      if (listVar_" ++ natRepr i ++
        S ") \x7b\n        for (let idx = 0; idx < listVar_" ++ natRepr i ++
        S ".length; idx++) \x7b\n          const inst = listVar_" ++ natRepr i ++
        S ".instanceAt(idx);\n          if (inst) \x7b\n            // Demo assignment; replace with real data source as needed\n            //const randomVal = Math.random() * 100;\n            //inst.number(\"" ++
        inner.2 ++ S "\").value = randomVal;\n          \x7d\n        \x7d\n      \x7d\n    \x7d\n"
      else [], true)
    | none => ([], false)
  else ([], false)

/-- The loop of `generate_text_input_js` over `INPUT_RANGE` (skipping falsy
cells), returning the concatenated JS and the `has_vmi_inputs` flag. -/
def gen_text_input_fold (row : Row) (pfx : PyStr) : List Nat → PyStr × Bool
  | [] => ([], false)
  | i :: is =>
    let rest := gen_text_input_fold row pfx is
    match row.inputs i with
    | none => rest
    | some v =>
      if v = [] then rest
      else
        let item := gen_text_input_item pfx i v
        (item.1 ++ rest.1, item.2 || rest.2)

/-- `generate_text_input_js(row, prefix, rive_var)`. -/
def generate_text_input_js (row : Row) (pfx rive_var : PyStr) : PyStr :=
  let r := gen_text_input_fold row pfx INPUT_RANGE
  if r.2 then S "    const vmi = " ++ rive_var ++ S ".viewModelInstance;\n" ++ r.1
  else r.1

/-- The per-input contribution of the state-machine section of
`generate_rive_js_block` (view-model and list kinds were already handled and
are skipped; `num`/`bol` get listeners; other kinds only get the two `let`
lookups). -/
def sm_input_item (input_pfx : PyStr) (i : Nat) (input_value : PyStr) : PyStr :=
  let t := (parse_input_spec input_value).1
  let input_name := (parse_input_spec input_value).2.1.getD (S "None")
  if t = some (S "txt") ∨ t = some (S "col") ∨ t = some (S "v_num") ∨
      t = some (S "v_bol") ∨ t = some (S "list") then []
  else
    let input_id := input_pfx ++ S "_input" ++ natRepr i
    let field_var := S "inputField_" ++ input_pfx ++ S "_" ++ natRepr i
    let obj_var := S "inputObj_" ++ input_pfx ++ S "_" ++ natRepr i
    let letLines := S "    let " ++ field_var ++ S " = document.getElementById(\"" ++
      input_id ++ S "\");\n" ++ S "    let " ++ obj_var ++
      S " = inputs.find(input => input.name === \"" ++ input_name ++ S "\");\n"
    if t = some (S "num") then
      letLines ++ S "    if (" ++ field_var ++ S " && " ++ obj_var ++ S ") \x7b\n      " ++
      field_var ++ S ".addEventListener(\"input\", () => \x7b\n        let val = parseFloat(" ++
      field_var ++ S ".value);\n        if (!isNaN(val)) " ++ obj_var ++
      S ".value = val;\n      \x7d);\n    \x7d\n"
    else if t = some (S "bol") then
      letLines ++ S "    if (" ++ field_var ++ S " && " ++ obj_var ++ S ") \x7b\n      " ++
      field_var ++ S ".addEventListener(\"change\", () => \x7b\n        " ++ obj_var ++
      S ".value = " ++ field_var ++ S ".checked;\n      \x7d);\n    \x7d\n"
    else letLines

/-- The state-machine input loop of `generate_rive_js_block` (cells that are
falsy or blank after stripping are skipped). -/
def sm_inputs_loop (row : Row) (input_pfx : PyStr) : List Nat → PyStr
  | [] => []
  | i :: is =>
    (match row.inputs i with
     | none => []
     | some v => if v = [] ∨ pyStrip v = [] then [] else sm_input_item input_pfx i v) ++
    sm_inputs_loop row input_pfx is

/-- `generate_rive_js_block(var_name, canvas_id, src, artboard, state_machine,
trigger, input_prefix, row)`. -/
def generate_rive_js_block (var_name canvas_id src artboard state_machine trigger
    input_pfx : PyStr) (row : Row) : PyStr :=
  let artboard_line := if artboard ≠ [] then S "artboard: \"" ++ artboard ++ S "\"," else []
  let state_machine_line :=
    if state_machine ≠ [] then S " stateMachines: \"" ++ state_machine ++ S "\"," else []
  S "\nconst " ++ var_name ++ S " = new rive.Rive(\x7b\n  src: \"" ++ src ++
  S "\",\n  canvas: document.getElementById(\"" ++ canvas_id ++
  S "\"),\n  autoplay: true, autoBind: true," ++ artboard_line ++ state_machine_line ++
  S "\n  onLoad: () => \x7b\n    " ++ var_name ++ S ".resizeDrawingSurfaceToCanvas();\n" ++
  generate_text_input_js row input_pfx var_name ++
  (if state_machine ≠ [] then
    S "    const inputs = " ++ var_name ++ S ".stateMachineInputs(\"" ++ state_machine ++
    S "\");\n" ++
    (if trigger ≠ [] then
      S "    let triggerInput = inputs.find(input => input.name === \"" ++ trigger ++
      S "\");\n    if (triggerInput) \x7b\n      document.getElementById(\"" ++ input_pfx ++
      S "\").addEventListener(\"click\", () => triggerInput.fire());\n    \x7d\n"
    else []) ++
    sm_inputs_loop row input_pfx INPUT_RANGE
  else []) ++
  S "  \x7d,\n\x7d);\n"

/-- The per-row loop of `make_script` over `enumerate(rows)`. -/
def make_script_blocks : List Row → Nat → PyStr
  | [], _ => []
  | row :: rest, idx =>
    generate_rive_js_block (S "r" ++ natRepr idx) (S "canvas" ++ natRepr idx)
      (S "riv/" ++ row.src) (row.artboard.getD []) row.state_machine
      (row.trigger.getD []) (S "btn" ++ natRepr idx) row ++
    make_script_blocks rest (idx + 1)

/-- `make_script(rows)`. -/
def make_script (rows : List Row) : PyStr :=
  S "<script>\n" ++ make_script_blocks rows 0 ++
  S "\ndocument.querySelectorAll('canvas').forEach(canvas => \x7b\n  canvas.style.width = canvas.width + \"px\";\n  canvas.style.height = canvas.height + \"px\";\n\x7d);\n\n// Fire all triggers 3 seconds after page load\nsetTimeout(() => \x7b\n  document.querySelectorAll('.rive-btn[id^=\"btn\"]').forEach(btn => \x7b\n    btn.click();\n  \x7d);\n\x7d, 3000);\n</script>\n"

/-- One button of `make_pagination_buttons`. -/
def pagination_button (current i : Nat) : PyStr :=
  if i = current then
    S "<button class=\"rive-btn\" style=\"background:#e0e0e0;color:#333;\">" ++
    natRepr (i + 1) ++ S "</button>"
  else
    S "<a href=\"" ++
    (if i = 0 then S "index.html" else S "page" ++ natRepr i ++ S ".html") ++
    S "\"><button class=\"rive-btn\">" ++ natRepr (i + 1) ++ S "</button></a>"

/-- `" ".join(...)`. -/
def joinSpace : List PyStr → PyStr
  | [] => []
  | [x] => x
  | x :: xs => x ++ ' ' :: joinSpace xs

/-- `make_pagination_buttons(current_page, total_pages)`. -/
def make_pagination_buttons (current_page total_pages : Nat) : PyStr :=
  S "<div style=\"margin: 24px 0; text-align:center;\">" ++
  joinSpace ((List.range total_pages).map (pagination_button current_page)) ++
  S "</div>"

/-- `html_foot`. -/
def html_foot : PyStr := S "\n    </div>\n</body>\n</html>\n"

/-- The generator expression of `write_main_page`: render each tile in order,
threading the random stream; an exception in one tile aborts the page. -/
def canvases_fold : List Row → Nat → Rng → Option (PyStr × Rng)
  | [], _, rng => some ([], rng)
  | row :: rest, idx, rng =>
    match make_main_canvas idx row rng with
    | none => none
    | some pr =>
      match canvases_fold rest (idx + 1) pr.2 with
      | none => none
      | some qr => some (pr.1 ++ qr.1, qr.2)

/-- The document string `write_main_page(page_rows, page_idx, total_pages)`
writes (the head template is passed in, `get_html_head()` being file I/O). -/
def write_main_page_content (head : PyStr) (page_rows : List Row)
    (page_idx total_pages : Nat) (rng : Rng) : Option PyStr :=
  match canvases_fold page_rows 0 rng with
  | none => none
  | some cr =>
    some (head ++ cr.1 ++ S "</div>\n" ++ make_script page_rows ++
      make_pagination_buttons page_idx total_pages ++ html_foot)

/-- The input lines of `make_description_html` (non-blank cells only). -/
def desc_inputs_loop (row : Row) : List Nat → PyStr
  | [] => []
  | i :: is =>
    (match row.inputs i with
     | none => []
     | some v =>
       if v ≠ [] ∧ pyStrip v ≠ [] then S "Input: " ++ pyStrip v ++ S "<br>" else []) ++
    desc_inputs_loop row is

/-- `make_description_html(row)`. -/
def make_description_html (row : Row) : PyStr :=
  S "<a href=\"../riv/" ++ row.src ++ S "\" target=\"_blank\" style=\"color: white;\">" ++
  get_display_name row.src ++ S "</a><br>" ++
  S "Size: " ++ (row.width ++ S "px × " ++ row.height ++ S "px") ++ S "<br>" ++
  S "State Machine: " ++ row.state_machine ++ S "<br>" ++
  (if pyTruthy row.artboard then S "Artboard: " ++ row.artboard.getD [] ++ S "<br>" else []) ++
  (if pyTruthy row.trigger then S "Trigger: " ++ row.trigger.getD [] ++ S "<br>" else []) ++
  desc_inputs_loop row INPUT_RANGE ++
  S "Duration: " ++ row.duration ++ S "s<br>" ++
  S "Loop: " ++ row.loop ++ S "<br>" ++
  S "Background: " ++ row.background ++ S "<br>"

/-- `generate_single_animation_html(row)`, threading the random stream
through `make_animation_inputs`. -/
def generate_single_animation_html (row : Row) (rng : Rng) : PyStr × Rng :=
  let ai := make_animation_inputs row (S "btn_main") rng
  (S "\n    <div class=\"animation-container\">\n      <canvas id=\"main_canvas\" width=\"" ++
   row.width ++ S "\" height=\"" ++ row.height ++
   S "\"></canvas>\n      <div class=\"description\">\n        <div>\n          <div>" ++
   make_description_html row ++
   S "</div>\n          <div style=\"display: flex; flex-direction: column; align-items: flex-end; margin-top: 16px; gap: 12px;\">\n            " ++
   (if pyTruthy row.trigger then
     S "<button id=\"btn_main\" class=\"rive-btn\">Trigger</button>" else []) ++
   S "\n            " ++ ai.1 ++
   S "\n          </div>\n        </div>\n      </div>\n    </div>\n", ai.2)

/-- `generate_dual_animation_html(row, preview_rive)` (the `preview_rive`
argument is unused by the source body); the main column's inputs are
rendered before the preview column's. -/
def generate_dual_animation_html (row : Row) (rng : Rng) : PyStr × Rng :=
  let aim := make_animation_inputs row (S "btn_main") rng
  let aip := make_animation_inputs row (S "btn_preview") aim.2
  (S "\n    <div class=\"animation-row\" style=\"display: flex; gap: 32px; align-items: flex-start;\">\n      <div class=\"animation-container\">\n        <canvas id=\"main_canvas\" width=\"" ++
   row.width ++ S "\" height=\"" ++ row.height ++
   S "\"></canvas>\n        <div class=\"description\">\n          <div>\n            <div>" ++
   make_description_html row ++
   S "</div>\n            <div style=\"display: flex; flex-direction: column; align-items: flex-end; margin-top: 16px; gap: 12px;\">\n              " ++
   (if pyTruthy row.trigger then
     S "<button id=\"btn_main\" class=\"rive-btn\">Trigger</button>" else []) ++
   S "\n              " ++ aim.1 ++
   S "\n            </div>\n          </div>\n        </div>\n      </div>\n      <div class=\"animation-container\">\n        <canvas id=\"preview_canvas\" width=\"" ++
   row.width ++ S "\" height=\"" ++ row.height ++
   S "\"></canvas>\n        <div class=\"description\">\n          Preview:<br>\n          <div style=\"display: flex; flex-direction: column; align-items: flex-end; margin-top: 16px; gap: 12px;\">\n            " ++
   (if pyTruthy row.trigger then
     S "<button id=\"btn_preview\" class=\"rive-btn\">Trigger</button>" else []) ++
   S "\n            " ++ aip.1 ++
   S "\n          </div>\n        </div>\n      </div>\n    </div>\n", aip.2)

/-- One `num`/`bol` control block of `generate_animation_controls_js`. -/
def controls_input_item (row : Row) (canvas_type rive_var : PyStr) (i : Nat)
    (input_value : PyStr) : PyStr :=
  let t := (parse_input_spec input_value).1
  let input_name := (parse_input_spec input_value).2.1.getD (S "None")
  if t = some (S "num") ∨ t = some (S "bol") then
    let tt := pyTitle canvas_type
    let input_id := S "btn_" ++ canvas_type ++ S "_input" ++ natRepr i
    S "\nlet inputField" ++ tt ++ S "_" ++ natRepr i ++ S " = document.getElementById(\"" ++
    input_id ++ S "\");\n" ++ rive_var ++
    S ".on(\"load\", () => \x7b\n  const inputs = " ++ rive_var ++
    S ".stateMachineInputs(\"" ++ row.state_machine ++ S "\");\n  let inputObj" ++ tt ++
    S "_" ++ natRepr i ++ S " = inputs.find(input => input.name === \"" ++ input_name ++
    S "\");\n  if (inputField" ++ tt ++ S "_" ++ natRepr i ++ S " && inputObj" ++ tt ++
    S "_" ++ natRepr i ++ S ") \x7b\n" ++
    make_input_js (t.getD []) input_name input_id
      (S "inputObj" ++ tt ++ S "_" ++ natRepr i)
      (S "inputField" ++ tt ++ S "_" ++ natRepr i) ++
    S "\n  \x7d\n\x7d);\n"
  else []

/-- The input loop of `generate_animation_controls_js` (falsy cells are
skipped). -/
def controls_inputs_loop (row : Row) (canvas_type rive_var : PyStr) : List Nat → PyStr
  | [] => []
  | i :: is =>
    (match row.inputs i with
     | none => []
     | some v => if v = [] then [] else controls_input_item row canvas_type rive_var i v) ++
    controls_inputs_loop row canvas_type rive_var is

/-- `generate_animation_controls_js(row, canvas_type, rive_var)`. -/
def generate_animation_controls_js (row : Row) (canvas_type rive_var : PyStr) : PyStr :=
  (if pyTruthy row.trigger then
    let tt := pyTitle canvas_type
    S "\nlet triggerInput" ++ tt ++ S ";\n" ++ rive_var ++
    S ".on(\"load\", () => \x7b\n  const inputs = " ++ rive_var ++
    S ".stateMachineInputs(\"" ++ row.state_machine ++ S "\");\n  triggerInput" ++ tt ++
    S " = inputs.find(input => input.name === \"" ++ row.trigger.getD [] ++
    S "\");\n\x7d);\ndocument.getElementById(\"btn_" ++ canvas_type ++
    S "\").addEventListener(\"click\", () => \x7b\n  if (triggerInput" ++ tt ++
    S ") \x7b\n    triggerInput" ++ tt ++ S ".fire();\n  \x7d\n\x7d);\n"
  else []) ++
  controls_inputs_loop row canvas_type rive_var INPUT_RANGE

/-- `generate_preview_animation_js(row, preview_rive)`. -/
def generate_preview_animation_js (row : Row) (preview_rive : PyStr) : PyStr :=
  S "\nconst previewRive = new rive.Rive(\x7b\n  src: \"" ++ preview_rive ++
  S "\",\n  canvas: document.getElementById(\"preview_canvas\"),\n  autoplay: true, autoBind: true," ++
  (if pyTruthy row.artboard then S " artboard: \"" ++ row.artboard.getD [] ++ S "\"," else []) ++
  (if row.state_machine ≠ [] then
    S " stateMachines: \"" ++ row.state_machine ++ S "\"," else []) ++
  S "\n  onLoad: () => \x7b\n    previewRive.resizeDrawingSurfaceToCanvas();\n" ++
  generate_text_input_js row (S "btn_preview") (S "previewRive") ++
  S "  \x7d,\n\x7d);\n" ++
  generate_animation_controls_js row (S "preview") (S "previewRive")

/-- `generate_animation_js(row, main_rive, preview_rive)`. -/
def generate_animation_js (row : Row) (main_rive : PyStr)
    (preview_rive : Option PyStr) : PyStr :=
  S "<script>\n" ++
  S "\nconst mainRive = new rive.Rive(\x7b\n  src: \"" ++ main_rive ++
  S "\",\n  canvas: document.getElementById(\"main_canvas\"),\n  autoplay: true,autoBind: true," ++
  (if pyTruthy row.artboard then S " artboard: \"" ++ row.artboard.getD [] ++ S "\"," else []) ++
  (if row.state_machine ≠ [] then
    S " stateMachines: \"" ++ row.state_machine ++ S "\"," else []) ++
  S "\n  onLoad: () => \x7b\n    mainRive.resizeDrawingSurfaceToCanvas();\n" ++
  generate_text_input_js row (S "btn_main") (S "mainRive") ++
  S "  \x7d,\n\x7d);\n" ++
  generate_animation_controls_js row (S "main") (S "mainRive") ++
  (match preview_rive with
   | some pr => generate_preview_animation_js row pr
   | none => []) ++
  S "\ndocument.querySelectorAll('canvas').forEach(canvas => \x7b\n  canvas.style.width = canvas.width + \"px\";\n  canvas.style.height = canvas.height + \"px\";\n\x7d);\n</script>\n"

/-- The document string `make_animation_page(row)` writes (the head template
and the preview-file existence check are passed in, both being file I/O:
`preview_rive = "../riv/" + base + "_preview.riv"` when the file exists). -/
def make_animation_page_content (head : PyStr) (row : Row) (previewExists : Bool)
    (rng : Rng) : PyStr × Rng :=
  let main_rive := S "../riv/" ++ row.src
  let preview_rive :=
    match previewExists with
    | true => some (S "../riv/" ++ splitextRoot row.src ++ S "_preview.riv")
    | false => none
  let body :=
    match preview_rive with
    | some _ => generate_dual_animation_html row rng
    | none => generate_single_animation_html row rng
  (head ++ body.1 ++ generate_animation_js row main_rive preview_rive ++ html_foot,
   body.2)

/-! ### C5: determinism of page composition -/

/-- Whether some input cell of the row parses to the `col` kind (the one
control whose default colour is drawn from the random generator). -/
def rowHasCol (row : Row) : Bool :=
  INPUT_RANGE.any fun i =>
    match row.inputs i with
    | some v => decide ((parse_input_spec v).1 = some (S "col"))
    | none => false

theorem rowHasCol_pointwise (row : Row) (h : rowHasCol row = false) :
    ∀ i ∈ INPUT_RANGE, ∀ v, row.inputs i = some v →
      (parse_input_spec v).1 ≠ some (S "col") := by
  intro i hi v hv hcontra
  have hx := List.any_eq_false.mp h i hi
  rw [hv] at hx
  exact hx (decide_eq_true hcontra)

set_option maxHeartbeats 1000000 in
theorem parse_input_field_rng (v : PyStr) (i : Nat) (b : PyStr) (rng rng2 : Rng)
    (h : (parse_input_spec v).1 ≠ some (S "col")) :
    parse_input_field v i b rng = ((parse_input_field v i b rng2).1, rng) := by
  dsimp only [parse_input_field]
  by_cases c1 : (parse_input_spec v).1 = some (S "list")
  · rw [if_pos c1, if_pos c1]
  · rw [if_neg c1, if_neg c1]
    by_cases c2 : (parse_input_spec v).1 = none ∨ (parse_input_spec v).1 = some []
    · rw [if_pos c2, if_pos c2]
    · rw [if_neg c2, if_neg c2]
      by_cases c3 : (parse_input_spec v).1 = some (S "num")
      · rw [if_pos c3, if_pos c3]
      · rw [if_neg c3, if_neg c3]
        by_cases c4 : (parse_input_spec v).1 = some (S "v_num")
        · rw [if_pos c4, if_pos c4]
        · rw [if_neg c4, if_neg c4]
          by_cases c5 : (parse_input_spec v).1 = some (S "txt")
          · rw [if_pos c5, if_pos c5]
          · rw [if_neg c5, if_neg c5]
            by_cases c6 : (parse_input_spec v).1 = some (S "bol")
            · rw [if_pos c6, if_pos c6]
            · rw [if_neg c6, if_neg c6]
              by_cases c7 : (parse_input_spec v).1 = some (S "col")
              · exact absurd c7 h
              · rw [if_neg c7, if_neg c7]
                by_cases c8 : (parse_input_spec v).1 = some (S "v_bol")
                · rw [if_pos c8, if_pos c8]
                · rw [if_neg c8, if_neg c8]
                  by_cases c9 : (parse_input_spec v).1 = some (S "img")
                  · rw [if_pos c9, if_pos c9]
                  · rw [if_neg c9, if_neg c9]

theorem collectGo_rng (row : Row) (b : PyStr) (l : List Nat) :
    ∀ (rng rng2 : Rng),
      (∀ i ∈ l, ∀ v, row.inputs i = some v →
        (parse_input_spec v).1 ≠ some (S "col")) →
      collectGo row b l rng = ((collectGo row b l rng2).1, rng) := by
  induction l with
  | nil => intro rng rng2 h; rfl
  | cons i is ih =>
    intro rng rng2 h
    cases hv : row.inputs i with
    | none =>
      simp only [collectGo, hv]
      exact ih rng rng2 (fun j hj => h j (by simp [hj]))
    | some v =>
      simp only [collectGo, hv]
      by_cases hs : pyStrip v ≠ []
      · rw [if_pos hs, if_pos hs]
        have hfield := parse_input_field_rng v i b rng rng2 (h i (by simp) v hv)
        rw [hfield]
        dsimp only
        have hrest := ih rng ((parse_input_field v i b rng2).2)
          (fun j hj => h j (by simp [hj]))
        rw [hrest]
      · rw [if_neg hs, if_neg hs]
        exact ih rng rng2 (fun j hj => h j (by simp [hj]))

theorem make_main_canvas_rng (idx : Nat) (row : Row) (rng rng2 : Rng)
    (h : rowHasCol row = false) :
    make_main_canvas idx row rng =
      (make_main_canvas idx row rng2).map (fun p => (p.1, rng)) := by
  have hc := collectGo_rng row (S "btn" ++ natRepr idx) INPUT_RANGE rng rng2
    (rowHasCol_pointwise row h)
  simp only [make_main_canvas, collect_input_fields, hc]
  cases scale_dimensions row.width row.height <;> rfl

theorem canvases_fold_rng : ∀ (rows : List Row) (idx : Nat) (rng rng2 : Rng),
    (∀ r ∈ rows, rowHasCol r = false) →
    canvases_fold rows idx rng = (canvases_fold rows idx rng2).map (fun p => (p.1, rng)) := by
  intro rows
  induction rows with
  | nil => intro idx rng rng2 h; rfl
  | cons row rest ih =>
    intro idx rng rng2 h
    simp only [canvases_fold]
    rw [make_main_canvas_rng idx row rng rng2 (h row (by simp))]
    cases hm : make_main_canvas idx row rng2 with
    | none => rfl
    | some pr =>
      dsimp only [Option.map]
      rw [ih (idx + 1) rng pr.2 (fun r hr => h r (by simp [hr]))]
      cases canvases_fold rest (idx + 1) pr.2 <;> rfl

theorem write_main_page_rng (head : PyStr) (rows : List Row) (pidx tp : Nat)
    (rng rng2 : Rng) (h : ∀ r ∈ rows, rowHasCol r = false) :
    write_main_page_content head rows pidx tp rng =
      write_main_page_content head rows pidx tp rng2 := by
  simp only [write_main_page_content, canvases_fold_rng rows 0 rng rng2 h]
  cases canvases_fold rows 0 rng2 <;> rfl

theorem make_animation_page_rng (head : PyStr) (row : Row) (pv : Bool)
    (rng rng2 : Rng) (h : rowHasCol row = false) :
    (make_animation_page_content head row pv rng).1 =
      (make_animation_page_content head row pv rng2).1 := by
  have hpt := rowHasCol_pointwise row h
  have hmain : ∀ r r2 : Rng, (collectGo row (S "btn_main") INPUT_RANGE r).1 =
      (collectGo row (S "btn_main") INPUT_RANGE r2).1 := by
    intro r r2
    rw [collectGo_rng row (S "btn_main") INPUT_RANGE r r2 hpt]
  have hprev : ∀ r r2 : Rng, (collectGo row (S "btn_preview") INPUT_RANGE r).1 =
      (collectGo row (S "btn_preview") INPUT_RANGE r2).1 := by
    intro r r2
    rw [collectGo_rng row (S "btn_preview") INPUT_RANGE r r2 hpt]
  cases pv with
  | false =>
    dsimp only [make_animation_page_content, generate_single_animation_html,
      make_animation_inputs]
    rw [hmain rng rng2]
  | true =>
    dsimp only [make_animation_page_content, generate_dual_animation_html,
      make_animation_inputs]
    rw [hmain rng rng2,
      hprev ((collectGo row (S "btn_main") INPUT_RANGE rng).2)
        ((collectGo row (S "btn_main") INPUT_RANGE rng2).2)]

/-- C5 (amended): page composition is deterministic given the row data, the
preview-existence result AND the state of the random generator; when no input
cell is of the colour kind — the one control whose default is drawn from
`random` — both the index page and the detail page are identical across any
two random states. -/
theorem page_composition_deterministic (head : PyStr) (page_rows : List Row)
    (page_idx tpages : Nat) (row : Row) (pv : Bool) (rng1 rng2 : Rng) :
    ((∀ r ∈ page_rows, rowHasCol r = false) →
      write_main_page_content head page_rows page_idx tpages rng1 =
        write_main_page_content head page_rows page_idx tpages rng2) ∧
    (rowHasCol row = false →
      (make_animation_page_content head row pv rng1).1 =
        (make_animation_page_content head row pv rng2).1) :=
  ⟨fun h => write_main_page_rng head page_rows page_idx tpages rng1 rng2 h,
   fun h => make_animation_page_rng head row pv rng1 rng2 h⟩

/-- Witness for C5's amended theorem: a colour-free row composes to identical
index and detail pages under two different random states. -/
theorem page_composition_deterministic_witness :
    write_main_page_content [] [sampleRow] 0 1 [5] =
      write_main_page_content [] [sampleRow] 0 1 [9] ∧
    (make_animation_page_content [] sampleRow true [5]).1 =
      (make_animation_page_content [] sampleRow true [9]).1 :=
  ⟨(page_composition_deterministic [] [sampleRow] 0 1 sampleRow true [5] [9]).1
     (by decide),
   (page_composition_deterministic [] [sampleRow] 0 1 sampleRow true [5] [9]).2
     (by decide)⟩

/-- A row with a colour-kind input, for the counterexample. -/
def colRow : Row :=
  { src := S "a.riv", width := S "200", height := S "100", duration := S "4",
    loop := S "yes", background := S "dark", state_machine := [],
    artboard := none, trigger := none,
    inputs := fun i => if i = 1 then some (S "col:Tint") else none }

set_option maxRecDepth 100000 in
/-- C5 counterexample: for a row with a `col:Tint` input, two runs of the
index-page composition over the same row data but different random draws
produce different document strings — the random default colour is embedded
in the page, so composition is not deterministic given its inputs alone. -/
theorem page_composition_random_cex :
    write_main_page_content [] [colRow] 0 1 [0] ≠
      write_main_page_content [] [colRow] 0 1 [1] := by decide
